import Mathlib

/-!
Shallow embedding of the cash reconciliation core of this repository
(src/cash_recon/logic.py, with the row shapes from src/cash_recon/models.py
and src/cash_recon/parse.py), together with theorems settling the claims
about it.

Modelling conventions:
* Python `datetime` values are modelled as `Int` (seconds on a global
  timeline); `timedelta.total_seconds()` is then plain subtraction.
* Python `float` amounts are modelled as `Rat`; the source's epsilon
  comparisons (`0.0001`) become exact rational comparisons.
* Python `str` is `String`; `str.replace(x, "")` chains become a character
  filter, `str.lower()` is `Char.toLower` mapped over the characters.
* Python lists are `List`, iteration is `List.foldl` over the list (with
  `List.enum` where the source uses `enumerate`), and the mutable `used`
  index sets are threaded explicitly as `List Nat` accumulators.
* `Optional` values and fallible parsing become `Option`.
-/

namespace CashRecon

/-- Python `needle in hay` check at the head: `needle` is a prefix of `hay`. -/
def chPrefixOf : List Char → List Char → Bool
  | [], _ => true
  | _ :: _, [] => false
  | a :: as, b :: bs => a == b && chPrefixOf as bs

/-- Python `needle in hay`: `needle` occurs contiguously in `hay`. -/
def chSubOf (needle : List Char) : List Char → Bool
  | [] => chPrefixOf needle []
  | c :: rest => chPrefixOf needle (c :: rest) || chSubOf needle rest

/-- Python substring containment `needle in hay` on strings. -/
def strHasSub (hay needle : String) : Bool := chSubOf needle.toList hay.toList

/-- Python `str.strip()` on a character list (drop whitespace at both ends). -/
def pyStrip (cs : List Char) : List Char :=
  ((cs.dropWhile Char.isWhitespace).reverse.dropWhile Char.isWhitespace).reverse

/-- models.py `Period`: inclusive start/end timestamps. -/
structure Period where
  start : Int
  «end» : Int
deriving DecidableEq

/-- logic.py `_in_period`: `period.start <= dt <= period.end`. -/
def in_period (dt : Int) (period : Period) : Bool :=
  decide (period.start ≤ dt) && decide (dt ≤ period.«end»)

/-- logic.py `_normalize_store`: drop ASCII and full-width spaces, lower-case.
(`value.replace(" ", "").replace("　", "").lower()`). -/
def normalize_store (value : String) : String :=
  ((value.toList.filter (fun c => !(c == ' ' || c == '　'))).map Char.toLower).asString

/-- logic.py `_normalize_name`: same body as `_normalize_store`. -/
def normalize_name (value : String) : String :=
  ((value.toList.filter (fun c => !(c == ' ' || c == '　'))).map Char.toLower).asString

/-- Decimal value of a digit string. -/
def pyDigitsVal (cs : List Char) : Int :=
  ((cs.foldl (fun n c => 10 * n + (c.toNat - '0'.toNat)) 0 : Nat) : Int)

/-- Python `int(s)` on the string captured by the regex: strip whitespace,
optional sign, then a non-empty run of decimal digits; `none` models the
`ValueError` branch. -/
def pyIntOfString (cs : List Char) : Option Int :=
  match pyStrip cs with
  | [] => none
  | c :: rest =>
    if c = '+' then
      if rest ≠ [] ∧ rest.all Char.isDigit then some (pyDigitsVal rest) else none
    else if c = '-' then
      if rest ≠ [] ∧ rest.all Char.isDigit then some (-(pyDigitsVal rest)) else none
    else if (c :: rest).all Char.isDigit then some (pyDigitsVal (c :: rest))
    else none

/-- One attempt of the source's regex `(\\d+)\\s*分鐘` at the head of the text.
The pattern is a Python *raw* string, so `\\d` is a literal backslash followed
by `d`, and `\\s` a literal backslash followed by `s`: a match is a literal
backslash, a non-empty run of `d` characters (greedy, captured together with
the leading backslash as group 1), a literal backslash, a possibly empty run
of `s` characters, then `分鐘`. Returns the captured group 1. -/
def reMatchAtHead (cs : List Char) : Option (List Char) :=
  match cs with
  | [] => none
  | c :: rest =>
    if c = '\\' then
      let ds := rest.takeWhile (fun c => c == 'd')
      if ds.isEmpty then none
      else
        let rest2 := rest.dropWhile (fun c => c == 'd')
        if rest2.head? = some '\\' then
          let rest3 := rest2.tail.dropWhile (fun c => c == 's')
          if rest3.head? = some '分' ∧ rest3.tail.head? = some '鐘' then some ('\\' :: ds)
          else none
        else none
    else none

/-- Python `re.search` for the source's pattern: first position (left to
right) where the pattern matches; returns the captured group 1. -/
def reSearchCapture : List Char → Option (List Char)
  | [] => none
  | c :: rest =>
    match reMatchAtHead (c :: rest) with
    | some g => some g
    | none => reSearchCapture rest

/-- logic.py `_extract_minutes`: `re.search(r"(\\d+)\\s*分鐘", text)` and
`int(group(1))` with the `ValueError` caught (returning `None`). -/
def extract_minutes (text : String) : Option Int :=
  if text = "" then none
  else
    match reSearchCapture text.toList with
    | some g => pyIntOfString g
    | none => none

/-- logic.py `_parse_pos_designer`: text before the first comma of the POS
product name, stripped. -/
def parse_pos_designer (product_name : String) : String :=
  if product_name = "" then ""
  else (pyStrip (product_name.toList.takeWhile (fun c => c ≠ ','))).asString

/-- logic.py `_normalize_pay_method`: drop spaces and underscores and
lower-case, then classify.  (The source repeats the identical
`"linepay" in t` disjunct five times; a disjunction of equal booleans is
written once here.) -/
def normalize_pay_method (text : String) : String :=
  let t := ((text.toList.filter (fun c => !(c == ' ' || c == '_'))).map Char.toLower).asString
  if strHasSub t "linepay" then "linepay"
  else if strHasSub t "line" && strHasSub t "pay" then "linepay"
  else if strHasSub text "信用卡" || strHasSub t "credit" || strHasSub t "card" then "credit_card"
  else ""

/-- Time distance in minutes used by both matchers:
`abs((t1 - t2).total_seconds() / 60)`. -/
def minutesBetween (t1 t2 : Int) : Rat := |((t1 - t2 : Int) : Rat) / 60|

/-- Python `int(x)` on a (non-negative) float: truncation toward zero. -/
def pyIntOfRat (q : Rat) : Int := Int.tdiv q.num (q.den : Int)

/-- The amount-comparison epsilon `0.0001` of logic.py. -/
def eps : Rat := 1 / 10000

/-- parse.py `OrdersRow` (one booking line). -/
structure OrdersRow where
  order_id : String
  order_code : String
  service_start : Int
  store : String
  designer : String
  service : String
  order_status : String
  checkin_time : Option Int
  bill_id : String
  bill_amount : Rat
  member_name : String
  phone : String
deriving DecidableEq

/-- parse.py `BillRow` (one service or top-up billing line). -/
structure BillRow where
  bill_id : String
  settlement_time : Int
  attributed_date : Int
  store : String
  designer : String
  item : String
  cash : Rat
  credit_card : Rat
  linepay : Rat
  bill_amount : Rat
deriving DecidableEq

/-- parse.py `HotcakeBills`: the two independently loaded bill collections. -/
structure HotcakeBills where
  service : List BillRow
  topup : List BillRow
deriving DecidableEq

/-- parse.py `PosRow` (one POS history line). -/
structure PosRow where
  product_name : String
  created_time : Int
  terminal_name : String
  order_amount : Rat
  cash_paid : Rat
  pay_status : String
  order_status : String
  pay_method : String
deriving DecidableEq

/-- parse.py `CardMachineRow` (one card-machine transaction line). -/
structure CardMachineRow where
  order_id : String
  store : String
  device_name : String
  amount : Rat
  paid_amount : Rat
  transaction_time : Int
  pay_method : String
deriving DecidableEq

/-- models.py `MissingBillRow`. -/
structure MissingBillRow where
  store : String
  order_id : String
  order_code : String
  service_start : Int
  designer : String
  service : String
  order_status : String
  checkin_time : Option Int
  member_name : String
  phone : String
deriving DecidableEq

/-- models.py `ServiceBillRow` (scoped copy of a service `BillRow`). -/
structure ServiceBillRow where
  store : String
  bill_id : String
  settlement_time : Int
  attributed_date : Int
  designer : String
  item : String
  cash : Rat
  credit_card : Rat
  linepay : Rat
  bill_amount : Rat
deriving DecidableEq

/-- models.py `TopUpBillRow` (scoped copy of a top-up `BillRow`). -/
structure TopUpBillRow where
  store : String
  bill_id : String
  settlement_time : Int
  attributed_date : Int
  designer : String
  item : String
  cash : Rat
  credit_card : Rat
  linepay : Rat
  bill_amount : Rat
deriving DecidableEq

/-- models.py `CardMatchRow`. -/
structure CardMatchRow where
  store : String
  bill_id : String
  pay_type : String
  hotcake_amount : Rat
  hotcake_time : Int
  card_amount : Rat
  card_time : Int
  time_diff_minutes : Int
deriving DecidableEq

/-- models.py `CardMismatchRow`. -/
structure CardMismatchRow where
  source : String
  store : String
  pay_type : String
  amount : Rat
  time : Int
  bill_id : String
  nearest_time : Option Int
  nearest_diff_minutes : Option Int
deriving DecidableEq

/-- models.py `HotcakeTimeMismatchRow`. -/
structure HotcakeTimeMismatchRow where
  store : String
  service_start : Int
  designer : String
  service : String
  minutes : Option Int
  bill_id : String
  bill_amount : Rat
  cash : Rat
  cash_diff : Option Rat
  nearest_pos_time : Option Int
  nearest_diff_minutes : Option Int
  reason : String
deriving DecidableEq

/-- models.py `PosTimeMismatchRow`. -/
structure PosTimeMismatchRow where
  terminal_name : String
  created_time : Int
  designer : String
  product_name : String
  minutes : Option Int
  cash_paid : Rat
  cash_diff : Option Rat
  nearest_hotcake_time : Option Int
  nearest_diff_minutes : Option Int
  reason : String
deriving DecidableEq

/-- models.py `CashTotals`. -/
structure CashTotals where
  hotcake_service_cash : Rat
  hotcake_topup_cash : Rat
  hotcake_cash_total : Rat
  pos_cash_total : Option Rat
  pos_cash_diff : Option Rat
  card_machine_total : Option Rat
deriving DecidableEq

/-- logic.py `CashReconResult`. -/
structure CashReconResult where
  period : Period
  store : String
  missing_bills : List MissingBillRow
  service_bill_rows : List ServiceBillRow
  topup_bill_rows : List TopUpBillRow
  hotcake_time_mismatches : List HotcakeTimeMismatchRow
  pos_time_mismatches : List PosTimeMismatchRow
  card_machine_rows : List CardMachineRow
  card_matches : List CardMatchRow
  card_mismatches : List CardMismatchRow
  totals : CashTotals
deriving DecidableEq

/-- Projection of an `OrdersRow` into a `MissingBillRow` (logic.py lines
100-113). -/
def missingBillRowOf (o : OrdersRow) : MissingBillRow :=
  { store := o.store, order_id := o.order_id, order_code := o.order_code,
    service_start := o.service_start, designer := o.designer, service := o.service,
    order_status := o.order_status, checkin_time := o.checkin_time,
    member_name := o.member_name, phone := o.phone }

/-- logic.py lines 96-115: the single loop over the scoped orders that both
collects the missing-bill rows and the set of referenced bill ids (the set is
modelled as the list of ids added to it, queried only through membership). -/
def ordersScan (scoped_orders : List OrdersRow) : List MissingBillRow × List String :=
  scoped_orders.foldl
    (fun acc o =>
      let mb :=
        if o.order_status = "已報到" ∧ o.bill_id = "" ∧ o.bill_amount = 0 then
          acc.1 ++ [missingBillRowOf o]
        else acc.1
      let ids := if o.bill_id ≠ "" then acc.2 ++ [o.bill_id] else acc.2
      (mb, ids))
    ([], [])

/-- Field-for-field copy of a service `BillRow` (logic.py lines 122-135). -/
def serviceBillRowOf (r : BillRow) : ServiceBillRow :=
  { store := r.store, bill_id := r.bill_id, settlement_time := r.settlement_time,
    attributed_date := r.attributed_date, designer := r.designer, item := r.item,
    cash := r.cash, credit_card := r.credit_card, linepay := r.linepay,
    bill_amount := r.bill_amount }

/-- Field-for-field copy of a top-up `BillRow` (logic.py lines 145-157). -/
def topupBillRowOf (r : BillRow) : TopUpBillRow :=
  { store := r.store, bill_id := r.bill_id, settlement_time := r.settlement_time,
    attributed_date := r.attributed_date, designer := r.designer, item := r.item,
    cash := r.cash, credit_card := r.credit_card, linepay := r.linepay,
    bill_amount := r.bill_amount }

/-- logic.py lines 165-167 (`bill_cash_map`) read through
`bill_cash_map.get(b, 0.0)`: total cash of the scoped service-bill rows
sharing a bill id. -/
def billCashMap (rows : List ServiceBillRow) (b : String) : Rat :=
  ((rows.filter (fun r => r.bill_id == b)).map (fun r => r.cash)).sum

/-- logic.py lines 302-311: a POS row paired with its normalized designer and
extracted minutes. -/
structure PosCand where
  row : PosRow
  designer_norm : String
  minutes : Option Int
deriving DecidableEq

/-- Candidate preparation for one POS row (logic.py lines 303-311). -/
def mkPosCand (p : PosRow) : PosCand :=
  { row := p, designer_norm := normalize_name (parse_pos_designer p.product_name),
    minutes := extract_minutes p.product_name }

/-- The `minutes is not None and p["minutes"] is not None and minutes != p["minutes"]`
guard of logic.py line 347. -/
def minutesConflict : Option Int → Option Int → Bool
  | some a, some b => a != b
  | _, _ => false

/-- The best (nearest eligible) candidate tracked by the cash matcher: the
locals `best_idx`, `best_diff`, `best_cash_match` of logic.py, which are
always assigned together. -/
structure CashBest where
  idx : Nat
  diff : Rat
  cash : Rat
deriving DecidableEq

/-- The nearest-candidate diagnostics tracked by the cash matcher: the locals
`nearest_diff`, `nearest_time`, `nearest_cash` of logic.py, always assigned
together. -/
structure CashNear where
  diff : Rat
  time : Int
  cash : Rat
deriving DecidableEq

/-- The state of the candidate scan of logic.py lines 336-357. -/
structure CashScanState where
  best : Option CashBest
  near : Option CashNear
deriving DecidableEq

/-- The eligibility guards of logic.py lines 343-347 (`continue` cases). -/
def cashEligible (designer_norm : String) (minutes : Option Int) (used_pos : List Nat)
    (ip : Nat × PosCand) : Bool :=
  !(used_pos.contains ip.1)
    && !(designer_norm ≠ "" && designer_norm != ip.2.designer_norm)
    && !(minutesConflict minutes ip.2.minutes)

/-- One iteration of the candidate scan of logic.py lines 342-357. -/
def cashScanStep (o_start : Int) (designer_norm : String) (minutes : Option Int)
    (used_pos : List Nat) (st : CashScanState) (ip : Nat × PosCand) : CashScanState :=
  if cashEligible designer_norm minutes used_pos ip then
    let diff := minutesBetween ip.2.row.created_time o_start
    let st1 : CashScanState :=
      match st.near with
      | none => { st with near := some ⟨diff, ip.2.row.created_time, ip.2.row.cash_paid⟩ }
      | some n =>
        if diff < n.diff then
          { st with near := some ⟨diff, ip.2.row.created_time, ip.2.row.cash_paid⟩ }
        else st
    match st1.best with
    | none => { st1 with best := some ⟨ip.1, diff, ip.2.row.cash_paid⟩ }
    | some b =>
      if diff < b.diff then { st1 with best := some ⟨ip.1, diff, ip.2.row.cash_paid⟩ }
      else st1
  else st

/-- The whole candidate scan for one order (logic.py lines 336-357). -/
def cashScan (o_start : Int) (designer_norm : String) (minutes : Option Int)
    (used_pos : List Nat) (cands : List PosCand) : CashScanState :=
  cands.enum.foldl (cashScanStep o_start designer_norm minutes used_pos) ⟨none, none⟩

/-- The designer-missing mismatch row of logic.py lines 318-333. -/
def designerMissingRowOf (o : OrdersRow) (minutes : Option Int) (cash : Rat) :
    HotcakeTimeMismatchRow :=
  { store := o.store, service_start := o.service_start, designer := o.designer,
    service := o.service, minutes := minutes, bill_id := o.bill_id,
    bill_amount := o.bill_amount, cash := cash, cash_diff := none,
    nearest_pos_time := none, nearest_diff_minutes := none, reason := "設計師缺失" }

/-- The Hotcake-side mismatch row of logic.py lines 370-385. -/
def hotcakeMismatchRowOf (o : OrdersRow) (minutes : Option Int) (hotcake_cash : Rat)
    (near : Option CashNear) : HotcakeTimeMismatchRow :=
  { store := o.store, service_start := o.service_start, designer := o.designer,
    service := o.service, minutes := minutes, bill_id := o.bill_id,
    bill_amount := o.bill_amount, cash := hotcake_cash,
    cash_diff := near.map (fun n => n.cash - hotcake_cash),
    nearest_pos_time := near.map (fun n => n.time),
    nearest_diff_minutes := near.map (fun n => pyIntOfRat n.diff),
    reason := "時間超過容忍或金額不符" }

/-- The running state of the per-order cash-matching loop (`used_pos` and the
growing `hotcake_time_mismatches`, logic.py lines 298-385). -/
structure CashPassState where
  used_pos : List Nat
  mismatches : List HotcakeTimeMismatchRow
deriving DecidableEq

/-- Processing of one scoped order by the cash matcher (logic.py lines
314-385). -/
def processOrder (time_tolerance_minutes : Int) (cashOf : String → Rat)
    (cands : List PosCand) (st : CashPassState) (o : OrdersRow) : CashPassState :=
  let designer_norm := normalize_name o.designer
  let minutes := extract_minutes o.service
  if designer_norm = "" then
    { st with mismatches := st.mismatches ++ [designerMissingRowOf o minutes (cashOf o.bill_id)] }
  else
    let s := cashScan o.service_start designer_norm minutes st.used_pos cands
    let hotcake_cash := cashOf o.bill_id
    match s.best with
    | some b =>
      if b.diff ≤ (time_tolerance_minutes : Rat) ∧ |b.cash - hotcake_cash| < eps then
        { st with used_pos := st.used_pos ++ [b.idx] }
      else
        { st with mismatches := st.mismatches ++ [hotcakeMismatchRowOf o minutes hotcake_cash s.near] }
    | none =>
      { st with mismatches := st.mismatches ++ [hotcakeMismatchRowOf o minutes hotcake_cash s.near] }

/-- The per-order cash-matching loop (logic.py lines 314-385). -/
def cashPass (time_tolerance_minutes : Int) (cashOf : String → Rat)
    (cands : List PosCand) (scoped_orders : List OrdersRow) : CashPassState :=
  scoped_orders.foldl (processOrder time_tolerance_minutes cashOf cands) ⟨[], []⟩

/-- One iteration of the nearest-order scan for a leftover POS candidate
(logic.py lines 395-402). -/
def posNearStep (cashOf : String → Rat) (c : PosCand) (acc : Option CashNear)
    (o : OrdersRow) : Option CashNear :=
  if normalize_name o.designer ≠ c.designer_norm then acc
  else
    let diff := minutesBetween c.row.created_time o.service_start
    match acc with
    | none => some ⟨diff, o.service_start, cashOf o.bill_id⟩
    | some n => if diff < n.diff then some ⟨diff, o.service_start, cashOf o.bill_id⟩ else acc

/-- The nearest-order scan for one leftover POS candidate (logic.py lines
392-402). -/
def posNearScan (scoped_orders : List OrdersRow) (cashOf : String → Rat)
    (c : PosCand) : Option CashNear :=
  scoped_orders.foldl (posNearStep cashOf c) none

/-- The POS-side mismatch row of logic.py lines 403-416. -/
def posMismatchRowOf (c : PosCand) (near : Option CashNear) : PosTimeMismatchRow :=
  { terminal_name := c.row.terminal_name, created_time := c.row.created_time,
    designer := parse_pos_designer c.row.product_name, product_name := c.row.product_name,
    minutes := c.minutes, cash_paid := c.row.cash_paid,
    cash_diff := near.map (fun n => c.row.cash_paid - n.cash),
    nearest_hotcake_time := near.map (fun n => n.time),
    nearest_diff_minutes := near.map (fun n => pyIntOfRat n.diff),
    reason := "時間超過容忍或金額不符" }

/-- The leftover-POS loop of logic.py lines 387-416: every candidate index not
consumed is emitted, with nearest-order context. -/
def posMismatches (scoped_orders : List OrdersRow) (cashOf : String → Rat)
    (cands : List PosCand) (used_pos : List Nat) : List PosTimeMismatchRow :=
  ((cands.enum.filter (fun ip => !(used_pos.contains ip.1))).map
    (fun ip => posMismatchRowOf ip.2 (posNearScan scoped_orders cashOf ip.2)))

/-- One Hotcake tender candidate of the card matcher (logic.py lines
196-212). -/
structure HotcakeCardCand where
  bill_id : String
  pay_type : String
  amount : Rat
  time : Int
deriving DecidableEq

/-- logic.py lines 193-212: each scoped service-bill row contributes one
candidate per positive credit-card amount and one per positive LinePay
amount. -/
def hotcakeCardCandidatesOf (rows : List ServiceBillRow) : List HotcakeCardCand :=
  rows.foldl
    (fun acc r =>
      let acc :=
        if 0 < r.credit_card then
          acc ++ [⟨r.bill_id, "credit_card", r.credit_card, r.settlement_time⟩]
        else acc
      if 0 < r.linepay then acc ++ [⟨r.bill_id, "linepay", r.linepay, r.settlement_time⟩]
      else acc)
    []

/-- The best candidate tracked by the card matcher (locals `best_idx`,
`best_diff` of logic.py, always assigned together). -/
structure CardBest where
  idx : Nat
  diff : Rat
deriving DecidableEq

/-- The nearest-candidate diagnostics of the card matcher (locals
`nearest_time`, `nearest_diff` of logic.py, always assigned together). -/
structure CardNear where
  diff : Rat
  time : Int
deriving DecidableEq

/-- The state of the card candidate scan of logic.py lines 233-250. -/
structure CardScanState where
  best : Option CardBest
  near : Option CardNear
deriving DecidableEq

/-- The eligibility guards of logic.py lines 238-243 (`continue` cases). -/
def cardEligible (pay_type : String) (paid_amount : Rat) (used_hotcake : List Nat)
    (ih : Nat × HotcakeCardCand) : Bool :=
  !(used_hotcake.contains ih.1)
    && !(ih.2.pay_type != pay_type)
    && !(decide (eps < |ih.2.amount - paid_amount|))

/-- One iteration of the card candidate scan (logic.py lines 237-250). -/
def cardScanStep (card_time : Int) (pay_type : String) (paid_amount : Rat)
    (used_hotcake : List Nat) (st : CardScanState) (ih : Nat × HotcakeCardCand) :
    CardScanState :=
  if cardEligible pay_type paid_amount used_hotcake ih then
    let diff := minutesBetween card_time ih.2.time
    let st1 : CardScanState :=
      match st.near with
      | none => { st with near := some ⟨diff, ih.2.time⟩ }
      | some n => if diff < n.diff then { st with near := some ⟨diff, ih.2.time⟩ } else st
    match st1.best with
    | none => { st1 with best := some ⟨ih.1, diff⟩ }
    | some b => if diff < b.diff then { st1 with best := some ⟨ih.1, diff⟩ } else st1
  else st

/-- The whole card candidate scan for one card row (logic.py lines 233-250). -/
def cardScan (card_time : Int) (pay_type : String) (paid_amount : Rat)
    (used_hotcake : List Nat) (cands : List HotcakeCardCand) : CardScanState :=
  cands.enum.foldl (cardScanStep card_time pay_type paid_amount used_hotcake) ⟨none, none⟩

/-- The running state of the per-card matching loop (logic.py lines 214-279). -/
structure CardPassState where
  used_hotcake : List Nat
  card_matches : List CardMatchRow
  card_mismatches : List CardMismatchRow
deriving DecidableEq

/-- Placeholder candidate for the (always in-bounds) list indexing
`hotcake_card_candidates[best_idx]` of logic.py line 253. -/
def dummyCardCand : HotcakeCardCand := ⟨"", "", 0, 0⟩

/-- Processing of one scoped card row (logic.py lines 216-279). -/
def processCard (store : String) (time_tolerance_minutes : Int)
    (cands : List HotcakeCardCand) (st : CardPassState) (card : CardMachineRow) :
    CardPassState :=
  let pay_type := normalize_pay_method card.pay_method
  if pay_type ≠ "credit_card" ∧ pay_type ≠ "linepay" then
    { st with card_mismatches := st.card_mismatches ++
        [{ source := "card", store := card.store, pay_type := card.pay_method,
           amount := card.paid_amount, time := card.transaction_time, bill_id := "",
           nearest_time := none, nearest_diff_minutes := none }] }
  else
    let s := cardScan card.transaction_time pay_type card.paid_amount st.used_hotcake cands
    match s.best with
    | some b =>
      if b.diff ≤ (time_tolerance_minutes : Rat) then
        let h := cands.getD b.idx dummyCardCand
        { st with used_hotcake := st.used_hotcake ++ [b.idx],
                  card_matches := st.card_matches ++
                    [{ store := store, bill_id := h.bill_id, pay_type := pay_type,
                       hotcake_amount := h.amount, hotcake_time := h.time,
                       card_amount := card.paid_amount, card_time := card.transaction_time,
                       time_diff_minutes := pyIntOfRat b.diff }] }
      else
        { st with card_mismatches := st.card_mismatches ++
            [{ source := "card", store := card.store, pay_type := pay_type,
               amount := card.paid_amount, time := card.transaction_time, bill_id := "",
               nearest_time := s.near.map (fun n => n.time),
               nearest_diff_minutes := s.near.map (fun n => pyIntOfRat n.diff) }] }
    | none =>
      { st with card_mismatches := st.card_mismatches ++
          [{ source := "card", store := card.store, pay_type := pay_type,
             amount := card.paid_amount, time := card.transaction_time, bill_id := "",
             nearest_time := s.near.map (fun n => n.time),
             nearest_diff_minutes := s.near.map (fun n => pyIntOfRat n.diff) }] }

/-- The per-card matching loop (logic.py lines 216-279). -/
def cardPass (store : String) (time_tolerance_minutes : Int)
    (cands : List HotcakeCardCand) (scoped_card : List CardMachineRow) : CardPassState :=
  scoped_card.foldl (processCard store time_tolerance_minutes cands) ⟨[], [], []⟩

/-- The leftover-Hotcake loop of logic.py lines 281-295. -/
def hotcakeLeftoverMismatches (store : String) (cands : List HotcakeCardCand)
    (used_hotcake : List Nat) : List CardMismatchRow :=
  (cands.enum.filter (fun ih => !(used_hotcake.contains ih.1))).map
    (fun ih =>
      { source := "hotcake", store := store, pay_type := ih.2.pay_type,
        amount := ih.2.amount, time := ih.2.time, bill_id := ih.2.bill_id,
        nearest_time := none, nearest_diff_minutes := none })

/-- The order-scoping filter of logic.py lines 91-94. -/
def scopedOrdersOf (period : Period) (store : String) (orders : List OrdersRow) :
    List OrdersRow :=
  orders.filter
    (fun o => normalize_store o.store == normalize_store store && in_period o.service_start period)

/-- logic.py `build_cash_recon` (lines 80-437): the whole reconciliation run. -/
def build_cash_recon (period : Period) (store : String) (orders : List OrdersRow)
    (bills : HotcakeBills) (pos_orders : Option (List PosRow) := none)
    (card_machine_rows : Option (List CardMachineRow) := none)
    (topup_mode : String := "settlement_time") (time_tolerance_minutes : Int := 30) :
    CashReconResult :=
  let store_norm := normalize_store store
  let scoped_orders := scopedOrdersOf period store orders
  let scan := ordersScan scoped_orders
  let missing_bills := scan.1
  let bill_ids_in_scope := scan.2
  let service_bill_rows :=
    if bill_ids_in_scope.isEmpty then []
    else (bills.service.filter (fun r => bill_ids_in_scope.contains r.bill_id)).map serviceBillRowOf
  let topup_bill_rows :=
    if topup_mode ≠ "exclude" then
      (bills.topup.filter
        (fun r => normalize_store r.store == store_norm && in_period r.settlement_time period)).map
        topupBillRowOf
    else []
  let hotcake_service_cash := (service_bill_rows.map (fun r => r.cash)).sum
  let hotcake_topup_cash := (topup_bill_rows.map (fun r => r.cash)).sum
  let hotcake_cash_total := hotcake_service_cash + hotcake_topup_cash
  let cashOf := billCashMap service_bill_rows
  let scoped_pos : List PosRow :=
    match pos_orders with
    | some ps => ps.filter (fun p => in_period p.created_time period)
    | none => []
  let pos_cash_total :=
    match pos_orders with
    | some _ => some ((scoped_pos.map (fun p => p.cash_paid)).sum)
    | none => none
  let pos_cash_diff :=
    match pos_orders with
    | some _ => some ((scoped_pos.map (fun p => p.cash_paid)).sum - hotcake_cash_total)
    | none => none
  let scoped_card : List CardMachineRow :=
    match card_machine_rows with
    | some rs =>
      rs.filter
        (fun r => normalize_store r.store == store_norm && in_period r.transaction_time period)
    | none => []
  let card_machine_total :=
    match card_machine_rows with
    | some _ => some ((scoped_card.map (fun r => r.paid_amount)).sum)
    | none => none
  let card_results :=
    if scoped_card.isEmpty then (([] : List CardMatchRow), ([] : List CardMismatchRow))
    else
      let card_cands := hotcakeCardCandidatesOf service_bill_rows
      let st := cardPass store time_tolerance_minutes card_cands scoped_card
      (st.card_matches,
        st.card_mismatches ++ hotcakeLeftoverMismatches store card_cands st.used_hotcake)
  let cash_results :=
    if scoped_pos.isEmpty then
      (([] : List HotcakeTimeMismatchRow), ([] : List PosTimeMismatchRow))
    else
      let pos_cands := scoped_pos.map mkPosCand
      let st := cashPass time_tolerance_minutes cashOf pos_cands scoped_orders
      (st.mismatches, posMismatches scoped_orders cashOf pos_cands st.used_pos)
  { period := period, store := store, missing_bills := missing_bills,
    service_bill_rows := service_bill_rows, topup_bill_rows := topup_bill_rows,
    hotcake_time_mismatches := cash_results.1, pos_time_mismatches := cash_results.2,
    card_machine_rows := scoped_card, card_matches := card_results.1,
    card_mismatches := card_results.2,
    totals :=
      { hotcake_service_cash := hotcake_service_cash,
        hotcake_topup_cash := hotcake_topup_cash,
        hotcake_cash_total := hotcake_cash_total,
        pos_cash_total := pos_cash_total, pos_cash_diff := pos_cash_diff,
        card_machine_total := card_machine_total } }

/-! ## Claim-side definitions

The following definitions transcribe the *spec's words* for the two matching
passes (claims C1 and C5), independently of the incremental scan loops of the
source: the nearest candidate is obtained with `List.argmin` over the filtered
candidate list.  The refinement theorems prove the embedded code equal to
these. -/

/-- Claim C1, candidate condition: an unused POS row whose normalized designer
equals the order's and whose extracted duration matches or is absent on either
side. -/
def claimCashEligible (used_pos : List Nat) (designer_norm : String)
    (minutes : Option Int) (ip : Nat × PosCand) : Bool :=
  !(used_pos.contains ip.1) && designer_norm == ip.2.designer_norm
    && !(minutesConflict minutes ip.2.minutes)

/-- Claim C1: the nearest (first-minimal by time distance) unused eligible POS
candidate for an order. -/
def claimNearestCand (o_start : Int) (designer_norm : String) (minutes : Option Int)
    (used_pos : List Nat) (cands : List PosCand) : Option (Nat × PosCand) :=
  (cands.enum.filter (claimCashEligible used_pos designer_norm minutes)).argmin
    (fun ip => minutesBetween ip.2.row.created_time o_start)

/-- Claim C1, one order: designer-missing orders are emitted at once; otherwise
the nearest eligible candidate is accepted and consumed iff its time distance
is within tolerance and its cash-paid amount equals the order's aggregated
cash within epsilon, else one Hotcake-side mismatch is emitted. -/
def claimProcessOrder (time_tolerance_minutes : Int) (cashOf : String → Rat)
    (cands : List PosCand) (st : CashPassState) (o : OrdersRow) : CashPassState :=
  let designer_norm := normalize_name o.designer
  let minutes := extract_minutes o.service
  if designer_norm = "" then
    { st with mismatches := st.mismatches ++ [designerMissingRowOf o minutes (cashOf o.bill_id)] }
  else
    let hotcake_cash := cashOf o.bill_id
    match claimNearestCand o.service_start designer_norm minutes st.used_pos cands with
    | some ip =>
      if minutesBetween ip.2.row.created_time o.service_start ≤ (time_tolerance_minutes : Rat)
          ∧ |ip.2.row.cash_paid - hotcake_cash| < eps then
        { st with used_pos := st.used_pos ++ [ip.1] }
      else
        { st with mismatches := st.mismatches ++
            [hotcakeMismatchRowOf o minutes hotcake_cash
              (some ⟨minutesBetween ip.2.row.created_time o.service_start,
                     ip.2.row.created_time, ip.2.row.cash_paid⟩)] }
    | none =>
      { st with mismatches := st.mismatches ++ [hotcakeMismatchRowOf o minutes hotcake_cash none] }

/-- Claim C1: nearest-order context of a leftover POS row (same designer,
nearest in time, no consumption and no tolerance gating). -/
def claimPosNear (scoped_orders : List OrdersRow) (cashOf : String → Rat)
    (c : PosCand) : Option CashNear :=
  ((scoped_orders.filter (fun o => normalize_name o.designer == c.designer_norm)).argmin
      (fun o => minutesBetween c.row.created_time o.service_start)).map
    (fun o => ⟨minutesBetween c.row.created_time o.service_start, o.service_start,
               cashOf o.bill_id⟩)

/-- Claim C1: every scoped POS row never consumed is emitted as exactly one
POS-side mismatch. -/
def claimPosMismatches (scoped_orders : List OrdersRow) (cashOf : String → Rat)
    (cands : List PosCand) (used_pos : List Nat) : List PosTimeMismatchRow :=
  (cands.enum.filter (fun ip => !(used_pos.contains ip.1))).map
    (fun ip => posMismatchRowOf ip.2 (claimPosNear scoped_orders cashOf ip.2))

/-- Outcome of the claim-side cash pass. -/
structure ClaimCashOutcome where
  used_pos : List Nat
  hotcake_time_mismatches : List HotcakeTimeMismatchRow
  pos_time_mismatches : List PosTimeMismatchRow
deriving DecidableEq

/-- Claim C1 (amended gating): the whole cash matching pass in the claim's
words, run when the scoped POS list is non-empty.  The order's aggregated cash
is the sum of cash across the scoped service-bill rows sharing its bill id. -/
def claimCashReconPass (period : Period) (store : String) (orders : List OrdersRow)
    (bills : HotcakeBills) (pos_orders : Option (List PosRow))
    (time_tolerance_minutes : Int) : ClaimCashOutcome :=
  let scoped_orders := scopedOrdersOf period store orders
  let bill_ids := (scoped_orders.filter (fun o => decide (o.bill_id ≠ ""))).map
    (fun o => o.bill_id)
  let service_rows := (bills.service.filter (fun r => bill_ids.contains r.bill_id)).map
    serviceBillRowOf
  let cashOf := billCashMap service_rows
  let scoped_pos : List PosRow :=
    match pos_orders with
    | some ps => ps.filter (fun p => in_period p.created_time period)
    | none => []
  if scoped_pos.isEmpty then ⟨[], [], []⟩
  else
    let cands := scoped_pos.map mkPosCand
    let st := scoped_orders.foldl
      (claimProcessOrder time_tolerance_minutes cashOf cands) ⟨[], []⟩
    ⟨st.used_pos, st.mismatches, claimPosMismatches scoped_orders cashOf cands st.used_pos⟩

/-- Claim C5, candidate condition: an unused Hotcake tender candidate of the
same pay type whose amount differs from the card row's paid amount by at most
epsilon. -/
def claimCardEligible (used_hotcake : List Nat) (pay_type : String) (paid_amount : Rat)
    (ih : Nat × HotcakeCardCand) : Bool :=
  !(used_hotcake.contains ih.1) && ih.2.pay_type == pay_type
    && decide (|ih.2.amount - paid_amount| ≤ eps)

/-- Claim C5: the nearest-in-time unused eligible Hotcake tender candidate. -/
def claimNearestCardCand (card_time : Int) (pay_type : String) (paid_amount : Rat)
    (used_hotcake : List Nat) (cands : List HotcakeCardCand) :
    Option (Nat × HotcakeCardCand) :=
  (cands.enum.filter (claimCardEligible used_hotcake pay_type paid_amount)).argmin
    (fun ih => minutesBetween card_time ih.2.time)

/-- Claim C5, one card row: unrecognized pay methods are emitted at once with
no time or bill context; recognized rows accept and consume the nearest
eligible candidate iff that nearest distance is within tolerance, else they
are emitted as a card-side mismatch. -/
def claimProcessCard (store : String) (time_tolerance_minutes : Int)
    (cands : List HotcakeCardCand) (st : CardPassState) (card : CardMachineRow) :
    CardPassState :=
  let pay_type := normalize_pay_method card.pay_method
  if pay_type ≠ "credit_card" ∧ pay_type ≠ "linepay" then
    { st with card_mismatches := st.card_mismatches ++
        [{ source := "card", store := card.store, pay_type := card.pay_method,
           amount := card.paid_amount, time := card.transaction_time, bill_id := "",
           nearest_time := none, nearest_diff_minutes := none }] }
  else
    match claimNearestCardCand card.transaction_time pay_type card.paid_amount
        st.used_hotcake cands with
    | some ih =>
      if minutesBetween card.transaction_time ih.2.time ≤ (time_tolerance_minutes : Rat) then
        { st with used_hotcake := st.used_hotcake ++ [ih.1],
                  card_matches := st.card_matches ++
                    [{ store := store, bill_id := ih.2.bill_id, pay_type := pay_type,
                       hotcake_amount := ih.2.amount, hotcake_time := ih.2.time,
                       card_amount := card.paid_amount, card_time := card.transaction_time,
                       time_diff_minutes :=
                         pyIntOfRat (minutesBetween card.transaction_time ih.2.time) }] }
      else
        { st with card_mismatches := st.card_mismatches ++
            [{ source := "card", store := card.store, pay_type := pay_type,
               amount := card.paid_amount, time := card.transaction_time, bill_id := "",
               nearest_time := some ih.2.time,
               nearest_diff_minutes :=
                 some (pyIntOfRat (minutesBetween card.transaction_time ih.2.time)) }] }
    | none =>
      { st with card_mismatches := st.card_mismatches ++
          [{ source := "card", store := card.store, pay_type := pay_type,
             amount := card.paid_amount, time := card.transaction_time, bill_id := "",
             nearest_time := none, nearest_diff_minutes := none }] }

/-- Outcome of the claim-side card pass. -/
structure ClaimCardOutcome where
  used_hotcake : List Nat
  card_matches : List CardMatchRow
  card_mismatches : List CardMismatchRow
deriving DecidableEq

/-- Claim C5 (amended gating): the whole card matching pass in the claim's
words, run when the scoped card list is non-empty; afterwards every unconsumed
Hotcake candidate is emitted as a mismatch tagged source `"hotcake"`. -/
def claimCardReconPass (period : Period) (store : String) (orders : List OrdersRow)
    (bills : HotcakeBills) (card_machine_rows : Option (List CardMachineRow))
    (time_tolerance_minutes : Int) : ClaimCardOutcome :=
  let scoped_orders := scopedOrdersOf period store orders
  let bill_ids := (scoped_orders.filter (fun o => decide (o.bill_id ≠ ""))).map
    (fun o => o.bill_id)
  let service_rows := (bills.service.filter (fun r => bill_ids.contains r.bill_id)).map
    serviceBillRowOf
  let scoped_card : List CardMachineRow :=
    match card_machine_rows with
    | some rs =>
      rs.filter
        (fun r => normalize_store r.store == normalize_store store
          && in_period r.transaction_time period)
    | none => []
  if scoped_card.isEmpty then ⟨[], [], []⟩
  else
    let cands := hotcakeCardCandidatesOf service_rows
    let st := scoped_card.foldl (claimProcessCard store time_tolerance_minutes cands) ⟨[], [], []⟩
    ⟨st.used_hotcake, st.card_matches,
      st.card_mismatches ++ hotcakeLeftoverMismatches store cands st.used_hotcake⟩

/-- Placeholder used when stating partition-counting bounds over POS candidate
indices. -/
def dummyPosCand : PosCand :=
  ⟨{ product_name := "", created_time := 0, terminal_name := "", order_amount := 0,
     cash_paid := 0, pay_status := "", order_status := "", pay_method := "" }, "", none⟩

/-! ## Concrete sample inputs for counterexamples and witnesses -/

/-- A one-day sample period. -/
def samplePeriod : Period := ⟨0, 86400⟩

/-- A scoped, checked-in order with an empty designer name and no bill. -/
def sampleOrderNoDesigner : OrdersRow :=
  { order_id := "O1", order_code := "", service_start := 3600, store := "S",
    designer := "", service := "", order_status := "已報到", checkin_time := none,
    bill_id := "", bill_amount := 0, member_name := "", phone := "" }

/-- A scoped order linked to bill `B1`. -/
def sampleOrderB1 : OrdersRow :=
  { order_id := "O2", order_code := "", service_start := 3600, store := "S",
    designer := "Amy", service := "", order_status := "已結帳", checkin_time := none,
    bill_id := "B1", bill_amount := 100, member_name := "", phone := "" }

/-- A service bill `B1` paid by credit card. -/
def sampleBillB1 : BillRow :=
  { bill_id := "B1", settlement_time := 4000, attributed_date := 0, store := "S",
    designer := "Amy", item := "", cash := 0, credit_card := 100, linepay := 0,
    bill_amount := 100 }

/-- Sample orders for the order-dependence scenario (C8): the earlier order. -/
def c8Order1 : OrdersRow :=
  { order_id := "A1", order_code := "", service_start := 0, store := "S",
    designer := "Amy", service := "", order_status := "已報到", checkin_time := none,
    bill_id := "B1", bill_amount := 1000, member_name := "", phone := "" }

/-- Sample orders for the order-dependence scenario (C8): the later order,
nearer in time to the shared POS row. -/
def c8Order2 : OrdersRow :=
  { order_id := "A2", order_code := "", service_start := 540, store := "S",
    designer := "Amy", service := "", order_status := "已報到", checkin_time := none,
    bill_id := "B2", bill_amount := 1000, member_name := "", phone := "" }

/-- The single POS row both C8 orders could match (created 600 s, cash 1000). -/
def c8PosGood : PosRow :=
  { product_name := "Amy,洗髮", created_time := 600, terminal_name := "T",
    order_amount := 1000, cash_paid := 1000, pay_status := "", order_status := "",
    pay_method := "現金" }

/-- A decoy POS row for the C8 counterexample: same designer, nearest to both
orders, but with a cash-paid amount matching neither order. -/
def c8PosDecoy : PosRow :=
  { product_name := "Amy,護髮", created_time := 60, terminal_name := "T",
    order_amount := 999, cash_paid := 999, pay_status := "", order_status := "",
    pay_method := "現金" }

/-- Aggregated-cash function for the C8 scenarios: every bill id aggregates to
cash 1000. -/
def c8CashOf : String → Rat := fun _ => 1000

/-! ## General lemmas about the embedded loops -/

/-- The missing-bill/bill-id collection loop, characterized with filters: it
appends, in scoped order, one missing-bill row per qualifying order, and one
bill id per order with a non-empty bill id. -/
theorem ordersScan_foldl_eq (l : List OrdersRow) :
    ∀ (a : List MissingBillRow) (b : List String),
      l.foldl
        (fun acc o =>
          let mb :=
            if o.order_status = "已報到" ∧ o.bill_id = "" ∧ o.bill_amount = 0 then
              acc.1 ++ [missingBillRowOf o]
            else acc.1
          let ids := if o.bill_id ≠ "" then acc.2 ++ [o.bill_id] else acc.2
          (mb, ids))
        (a, b)
      = (a ++ (l.filter (fun o =>
            decide (o.order_status = "已報到" ∧ o.bill_id = "" ∧ o.bill_amount = 0))).map
            missingBillRowOf,
         b ++ (l.filter (fun o => decide (o.bill_id ≠ ""))).map (fun o => o.bill_id)) := by
  induction l with
  | nil => intro a b; simp
  | cons o t ih =>
    intro a b
    rw [List.foldl_cons]
    show List.foldl _
        ((if o.order_status = "已報到" ∧ o.bill_id = "" ∧ o.bill_amount = 0 then
            a ++ [missingBillRowOf o]
          else a),
         (if o.bill_id ≠ "" then b ++ [o.bill_id] else b)) t = _
    rw [ih]
    by_cases h1 : o.order_status = "已報到" ∧ o.bill_id = "" ∧ o.bill_amount = 0 <;>
      by_cases h2 : o.bill_id ≠ "" <;>
        simp [List.filter_cons, h1, h2, List.append_assoc]

/-- `ordersScan` in closed form. -/
theorem ordersScan_eq (l : List OrdersRow) :
    ordersScan l =
      ((l.filter (fun o =>
          decide (o.order_status = "已報到" ∧ o.bill_id = "" ∧ o.bill_amount = 0))).map
          missingBillRowOf,
       (l.filter (fun o => decide (o.bill_id ≠ ""))).map (fun o => o.bill_id)) := by
  have h := ordersScan_foldl_eq l [] []
  simpa [ordersScan] using h

/-- The `if bill_ids_in_scope:` guard of logic.py line 118 is redundant: with
no bill ids in scope the membership filter selects nothing anyway. -/
theorem serviceRows_guard_eq (service : List BillRow) (ids : List String) :
    (if ids.isEmpty then []
     else (service.filter (fun r => ids.contains r.bill_id)).map serviceBillRowOf)
      = (service.filter (fun r => ids.contains r.bill_id)).map serviceBillRowOf := by
  cases ids with
  | nil =>
    simp only [List.isEmpty_nil, if_true]
    have h : service.filter (fun r => ([] : List String).contains r.bill_id) = [] := by
      simp
    rw [h]
    rfl
  | cons x xs => simp

/-- The scoped service-bill rows of `build_cash_recon`, in closed form. -/
theorem build_service_bill_rows_eq (period : Period) (store : String)
    (orders : List OrdersRow) (bills : HotcakeBills) (pos_orders : Option (List PosRow))
    (card_machine_rows : Option (List CardMachineRow)) (topup_mode : String)
    (time_tolerance_minutes : Int) :
    (build_cash_recon period store orders bills pos_orders card_machine_rows topup_mode
        time_tolerance_minutes).service_bill_rows
      = (bills.service.filter (fun r =>
          (((scopedOrdersOf period store orders).filter
              (fun o => decide (o.bill_id ≠ ""))).map (fun o => o.bill_id)).contains
            r.bill_id)).map serviceBillRowOf := by
  simp only [build_cash_recon, ordersScan_eq]
  exact serviceRows_guard_eq _ _

/-! ## C9: order scoping -/

/-- C9: an order is in scope iff its store name, normalized by stripping ASCII
and full-width spaces and lower-casing, equals the normalized requested store,
and its `service_start` lies in the closed interval `[start, end]` (both
bounds included, anything outside excluded). -/
theorem C9_order_scoping (period : Period) (store : String) (orders : List OrdersRow)
    (o : OrdersRow) :
    o ∈ scopedOrdersOf period store orders ↔
      o ∈ orders
      ∧ ((o.store.toList.filter (fun c => !(c == ' ' || c == '　'))).map Char.toLower).asString
          = ((store.toList.filter (fun c => !(c == ' ' || c == '　'))).map Char.toLower).asString
      ∧ period.start ≤ o.service_start ∧ o.service_start ≤ period.«end» := by
  simp [scopedOrdersOf, List.mem_filter, in_period, normalize_store, and_assoc]

/-! ## C3: missing-bill detection -/

/-- C3: for every in-scope order, exactly one missing-bill row (carrying the
order's identifying and contact fields) is emitted iff the order's status is
the checked-in marker, its bill id is empty and its linked bill amount is
exactly zero; the rows appear in scoped order, one per qualifying order. -/
theorem C3_missing_bills (period : Period) (store : String) (orders : List OrdersRow)
    (bills : HotcakeBills) (pos_orders : Option (List PosRow))
    (card_machine_rows : Option (List CardMachineRow)) (topup_mode : String)
    (time_tolerance_minutes : Int) :
    (build_cash_recon period store orders bills pos_orders card_machine_rows topup_mode
        time_tolerance_minutes).missing_bills
      = ((scopedOrdersOf period store orders).filter (fun o =>
          decide (o.order_status = "已報到" ∧ o.bill_id = "" ∧ o.bill_amount = 0))).map
          missingBillRowOf := by
  simp only [build_cash_recon, ordersScan_eq]

/-! ## C4: bill-row scoping -/

/-- C4: service-bill rows are selected solely by membership of their bill id in
the set of bill ids referenced by in-scope orders (never by their own
settlement time or store), while top-up rows (unless `topup_mode` is
`"exclude"`) are selected independently of any order, by normalized store
match and settlement time within the period. -/
theorem C4_bill_scoping (period : Period) (store : String) (orders : List OrdersRow)
    (bills : HotcakeBills) (pos_orders : Option (List PosRow))
    (card_machine_rows : Option (List CardMachineRow)) (topup_mode : String)
    (time_tolerance_minutes : Int) :
    (build_cash_recon period store orders bills pos_orders card_machine_rows topup_mode
        time_tolerance_minutes).service_bill_rows
      = (bills.service.filter (fun r =>
          (((scopedOrdersOf period store orders).filter
              (fun o => decide (o.bill_id ≠ ""))).map (fun o => o.bill_id)).contains
            r.bill_id)).map serviceBillRowOf
    ∧ (build_cash_recon period store orders bills pos_orders card_machine_rows topup_mode
        time_tolerance_minutes).topup_bill_rows
      = (if topup_mode ≠ "exclude" then
          (bills.topup.filter (fun r =>
            normalize_store r.store == normalize_store store
              && in_period r.settlement_time period)).map topupBillRowOf
        else []) := by
  refine ⟨build_service_bill_rows_eq _ _ _ _ _ _ _ _, ?_⟩
  simp only [build_cash_recon]

/-! ## C6: totals -/

/-- C6: `hotcake_cash_total` is the sum of the service and top-up cash sums;
the top-up sum is zero under `topup_mode = "exclude"`; `pos_cash_total` and
`pos_cash_diff` are present iff POS data was supplied, with the diff exactly
`pos_cash_total - hotcake_cash_total` (negative differences included); and
`card_machine_total` is present iff card-machine data was supplied. -/
theorem C6_totals (period : Period) (store : String) (orders : List OrdersRow)
    (bills : HotcakeBills) (pos_orders : Option (List PosRow))
    (card_machine_rows : Option (List CardMachineRow)) (topup_mode : String)
    (time_tolerance_minutes : Int) :
    (build_cash_recon period store orders bills pos_orders card_machine_rows topup_mode
        time_tolerance_minutes).totals.hotcake_cash_total
      = (build_cash_recon period store orders bills pos_orders card_machine_rows topup_mode
          time_tolerance_minutes).totals.hotcake_service_cash
        + (build_cash_recon period store orders bills pos_orders card_machine_rows topup_mode
            time_tolerance_minutes).totals.hotcake_topup_cash
    ∧ (build_cash_recon period store orders bills pos_orders card_machine_rows topup_mode
        time_tolerance_minutes).totals.hotcake_service_cash
      = (((build_cash_recon period store orders bills pos_orders card_machine_rows topup_mode
            time_tolerance_minutes).service_bill_rows).map (fun r => r.cash)).sum
    ∧ (build_cash_recon period store orders bills pos_orders card_machine_rows topup_mode
        time_tolerance_minutes).totals.hotcake_topup_cash
      = (((build_cash_recon period store orders bills pos_orders card_machine_rows topup_mode
            time_tolerance_minutes).topup_bill_rows).map (fun r => r.cash)).sum
    ∧ (build_cash_recon period store orders bills pos_orders card_machine_rows "exclude"
        time_tolerance_minutes).totals.hotcake_topup_cash = 0
    ∧ ((build_cash_recon period store orders bills pos_orders card_machine_rows topup_mode
        time_tolerance_minutes).totals.pos_cash_total).isSome = pos_orders.isSome
    ∧ (build_cash_recon period store orders bills pos_orders card_machine_rows topup_mode
        time_tolerance_minutes).totals.pos_cash_diff
      = ((build_cash_recon period store orders bills pos_orders card_machine_rows topup_mode
          time_tolerance_minutes).totals.pos_cash_total).map
          (fun t =>
            t - (build_cash_recon period store orders bills pos_orders card_machine_rows
                  topup_mode time_tolerance_minutes).totals.hotcake_cash_total)
    ∧ ((build_cash_recon period store orders bills pos_orders card_machine_rows topup_mode
        time_tolerance_minutes).totals.card_machine_total).isSome
      = card_machine_rows.isSome := by
  refine ⟨by simp only [build_cash_recon], by simp only [build_cash_recon], ?_, ?_, ?_, ?_, ?_⟩
  · simp only [build_cash_recon]
  · simp only [build_cash_recon, ne_eq, not_true_eq_false, if_false, List.map_nil,
      List.sum_nil]
  · cases pos_orders <;> simp [build_cash_recon]
  · cases pos_orders <;> simp [build_cash_recon]
  · cases card_machine_rows <;> simp [build_cash_recon]

/-! ## C2: duration extraction -/

/-- A list whose members all fail the predicate is unchanged by `dropWhile`. -/
theorem dropWhile_eq_self_of_all (p : Char → Bool) (l : List Char)
    (h : ∀ c ∈ l, p c = false) : l.dropWhile p = l := by
  cases l with
  | nil => rfl
  | cons c t => simp [List.dropWhile_cons, h c (List.mem_cons_self c t)]

/-- `pyStrip` does not change a list containing no whitespace. -/
theorem pyStrip_eq_self (l : List Char) (h : ∀ c ∈ l, c.isWhitespace = false) :
    pyStrip l = l := by
  unfold pyStrip
  rw [dropWhile_eq_self_of_all _ _ h, dropWhile_eq_self_of_all, List.reverse_reverse]
  intro c hc
  exact h c (List.mem_reverse.mp hc)

/-- Any capture group produced by one match attempt of the source's raw-string
pattern starts with a literal backslash followed by `d` characters. -/
theorem reMatchAtHead_shape (cs : List Char) (g : List Char)
    (h : reMatchAtHead cs = some g) : ∃ ds, g = '\\' :: ds ∧ ∀ c ∈ ds, c = 'd' := by
  cases cs with
  | nil => exact absurd h (by simp [reMatchAtHead])
  | cons c rest =>
    have hre : reMatchAtHead (c :: rest) =
        (if c = '\\' then
          if (rest.takeWhile (fun c => c == 'd')).isEmpty then none
          else
            if (rest.dropWhile (fun c => c == 'd')).head? = some '\\' then
              if ((rest.dropWhile (fun c => c == 'd')).tail.dropWhile
                    (fun c => c == 's')).head? = some '分'
                  ∧ ((rest.dropWhile (fun c => c == 'd')).tail.dropWhile
                      (fun c => c == 's')).tail.head? = some '鐘' then
                some ('\\' :: rest.takeWhile (fun c => c == 'd'))
              else none
            else none
        else none) := rfl
    rw [hre] at h
    by_cases h1 : c = '\\'
    case neg => rw [if_neg h1] at h; exact absurd h (by simp)
    rw [if_pos h1] at h
    by_cases h2 : (rest.takeWhile (fun c => c == 'd')).isEmpty = true
    case pos => rw [if_pos h2] at h; exact absurd h (by simp)
    rw [if_neg h2] at h
    by_cases h3 : (rest.dropWhile (fun c => c == 'd')).head? = some '\\'
    case neg => rw [if_neg h3] at h; exact absurd h (by simp)
    rw [if_pos h3] at h
    by_cases h4 : ((rest.dropWhile (fun c => c == 'd')).tail.dropWhile
          (fun c => c == 's')).head? = some '分'
        ∧ ((rest.dropWhile (fun c => c == 'd')).tail.dropWhile
            (fun c => c == 's')).tail.head? = some '鐘'
    case neg => rw [if_neg h4] at h; exact absurd h (by simp)
    rw [if_pos h4] at h
    injection h with h
    refine ⟨rest.takeWhile (fun c => c == 'd'), h.symm, ?_⟩
    intro c hc
    have := List.mem_takeWhile_imp hc
    simpa using this

/-- Any capture group produced by the whole search has the same shape. -/
theorem reSearchCapture_shape (cs : List Char) (g : List Char)
    (h : reSearchCapture cs = some g) : ∃ ds, g = '\\' :: ds ∧ ∀ c ∈ ds, c = 'd' := by
  induction cs with
  | nil => simp [reSearchCapture] at h
  | cons c rest ih =>
    rw [reSearchCapture] at h
    cases hm : reMatchAtHead (c :: rest) with
    | some g0 =>
      rw [hm] at h
      injection h with h
      exact h ▸ reMatchAtHead_shape _ _ hm
    | none =>
      rw [hm] at h
      exact ih h

/-- Python `int()` fails on every captured group: the leading character is a
backslash, not a digit. -/
theorem pyIntOfString_backslash (ds : List Char) (hds : ∀ c ∈ ds, c = 'd') :
    pyIntOfString ('\\' :: ds) = none := by
  have hws : ∀ c ∈ '\\' :: ds, c.isWhitespace = false := by
    intro c hc
    rcases List.mem_cons.mp hc with h | h
    · rw [h]; decide
    · rw [hds c h]; decide
  have hdig : Char.isDigit '\\' = false := by decide
  unfold pyIntOfString
  rw [pyStrip_eq_self _ hws]
  simp only [List.all_cons, hdig, Bool.false_and, Bool.false_eq_true, if_false]
  rw [if_neg (by decide : ¬('\\' = '+')), if_neg (by decide : ¬('\\' = '-'))]

/-- The duration-extraction function returns `none` on every input: the
pattern's doubled backslashes (in a raw string) require a literal backslash in
the text, and the captured group then never parses as an integer. -/
theorem extract_minutes_eq_none (text : String) : extract_minutes text = none := by
  unfold extract_minutes
  by_cases h : text = ""
  · simp [h]
  · simp only [h, if_false]
    cases hm : reSearchCapture text.toList with
    | none => rfl
    | some g =>
      obtain ⟨ds, rfl, hds⟩ := reSearchCapture_shape _ _ hm
      exact pyIntOfString_backslash ds hds

/-- C2: the claim says the extractor returns `N` whenever the text contains
digits immediately before `分鐘` (e.g. `"60分鐘"` yields 60).  The code cannot:
its pattern is the raw string `r"(\\d+)\\s*分鐘"`, whose doubled backslashes
match literal backslash characters, so the extractor returns `none` for every
input — in particular on the claim's own example `"60分鐘"`. -/
theorem C2_extract_minutes_code_bug :
    extract_minutes "60分鐘" = none ∧ ∀ text : String, extract_minutes text = none :=
  ⟨extract_minutes_eq_none _, extract_minutes_eq_none⟩

/-! ## C10: pay-method normalization -/

/-- `chPrefixOf` decides the prefix relation. -/
theorem chPrefixOf_iff (n h : List Char) : chPrefixOf n h = true ↔ n <+: h := by
  induction n generalizing h with
  | nil => simp [chPrefixOf]
  | cons a as ih =>
    cases h with
    | nil => simp [chPrefixOf]
    | cons b bs => simp [chPrefixOf, ih, List.cons_prefix_cons]

/-- `chSubOf` decides the contiguous-substring (infix) relation. -/
theorem chSubOf_iff (n h : List Char) : chSubOf n h = true ↔ n <:+: h := by
  induction h with
  | nil =>
    cases n with
    | nil => simp [chSubOf, chPrefixOf]
    | cons c t => simp [chSubOf, chPrefixOf]
  | cons c t ih => simp [chSubOf, chPrefixOf_iff, ih, List.infix_cons_iff]

/-- Python substring containment, as the infix relation on character lists. -/
theorem strHasSub_iff (hay needle : String) :
    strHasSub hay needle = true ↔ needle.toList <:+: hay.toList :=
  chSubOf_iff _ _

/-- Containing `"linepay"` entails containing `"line"`. -/
theorem strHasSub_linepay_line (t : String) (h : strHasSub t "linepay" = true) :
    strHasSub t "line" = true := by
  rw [strHasSub_iff] at h ⊢
  exact List.IsInfix.trans (by decide) h

/-- Containing `"linepay"` entails containing `"pay"`. -/
theorem strHasSub_linepay_pay (t : String) (h : strHasSub t "linepay" = true) :
    strHasSub t "pay" = true := by
  rw [strHasSub_iff] at h ⊢
  exact List.IsInfix.trans (by decide) h

/-- C10: when the normalized method text contains both `"line"` and `"pay"`
and also a credit-card indicator, the LinePay classification wins; and a
method matching neither pattern normalizes to the empty string, not a distinct
unknown marker. -/
theorem C10_pay_method_precedence (text : String) :
    (strHasSub (((text.toList.filter (fun c => !(c == ' ' || c == '_'))).map
        Char.toLower).asString) "line" = true →
     strHasSub (((text.toList.filter (fun c => !(c == ' ' || c == '_'))).map
        Char.toLower).asString) "pay" = true →
     (strHasSub text "信用卡" = true
       ∨ strHasSub (((text.toList.filter (fun c => !(c == ' ' || c == '_'))).map
            Char.toLower).asString) "credit" = true
       ∨ strHasSub (((text.toList.filter (fun c => !(c == ' ' || c == '_'))).map
            Char.toLower).asString) "card" = true) →
     normalize_pay_method text = "linepay")
    ∧ (¬ (strHasSub (((text.toList.filter (fun c => !(c == ' ' || c == '_'))).map
            Char.toLower).asString) "line" = true
          ∧ strHasSub (((text.toList.filter (fun c => !(c == ' ' || c == '_'))).map
              Char.toLower).asString) "pay" = true) →
       ¬ (strHasSub text "信用卡" = true
          ∨ strHasSub (((text.toList.filter (fun c => !(c == ' ' || c == '_'))).map
              Char.toLower).asString) "credit" = true
          ∨ strHasSub (((text.toList.filter (fun c => !(c == ' ' || c == '_'))).map
              Char.toLower).asString) "card" = true) →
       normalize_pay_method text = "") := by
  have hunfold : normalize_pay_method text =
      (if strHasSub (((text.toList.filter (fun c => !(c == ' ' || c == '_'))).map
          Char.toLower).asString) "linepay" then "linepay"
       else if strHasSub (((text.toList.filter (fun c => !(c == ' ' || c == '_'))).map
          Char.toLower).asString) "line"
          && strHasSub (((text.toList.filter (fun c => !(c == ' ' || c == '_'))).map
              Char.toLower).asString) "pay" then "linepay"
       else if strHasSub text "信用卡"
          || strHasSub (((text.toList.filter (fun c => !(c == ' ' || c == '_'))).map
              Char.toLower).asString) "credit"
          || strHasSub (((text.toList.filter (fun c => !(c == ' ' || c == '_'))).map
              Char.toLower).asString) "card" then "credit_card"
       else "") := rfl
  rw [hunfold]
  constructor
  · intro hl hp _
    by_cases h1 : strHasSub (((text.toList.filter (fun c => !(c == ' ' || c == '_'))).map
        Char.toLower).asString) "linepay" = true
    · rw [if_pos h1]
    · rw [if_neg h1, if_pos (by rw [Bool.and_eq_true]; exact ⟨hl, hp⟩)]
  · intro hn hc
    have hA : ¬ (strHasSub (((text.toList.filter (fun c => !(c == ' ' || c == '_'))).map
        Char.toLower).asString) "linepay" = true) := fun hx =>
      hn ⟨strHasSub_linepay_line _ hx, strHasSub_linepay_pay _ hx⟩
    have hB : ¬ ((strHasSub (((text.toList.filter (fun c => !(c == ' ' || c == '_'))).map
        Char.toLower).asString) "line"
        && strHasSub (((text.toList.filter (fun c => !(c == ' ' || c == '_'))).map
            Char.toLower).asString) "pay") = true) := by
      rw [Bool.and_eq_true]
      exact hn
    have hC : ¬ ((strHasSub text "信用卡"
        || strHasSub (((text.toList.filter (fun c => !(c == ' ' || c == '_'))).map
            Char.toLower).asString) "credit"
        || strHasSub (((text.toList.filter (fun c => !(c == ' ' || c == '_'))).map
            Char.toLower).asString) "card") = true) := by
      intro hx
      apply hc
      simpa [Bool.or_eq_true, or_assoc] using hx
    rw [if_neg hA, if_neg hB, if_neg hC]

/-- C10 witness: `"LINE_Pay信用卡"` (LinePay and a credit-card indicator)
normalizes to `"linepay"`, and `"現金"` (neither pattern) to `""`. -/
theorem C10_pay_method_precedence_witness :
    normalize_pay_method "LINE_Pay信用卡" = "linepay" ∧ normalize_pay_method "現金" = "" := by
  constructor
  · exact (C10_pay_method_precedence "LINE_Pay信用卡").1 (by decide) (by decide)
      (Or.inl (by decide))
  · exact (C10_pay_method_precedence "現金").2 (by decide) (by decide)

/-! ## The cash-matcher scan computes a first-minimal (argmin) candidate -/

/-- The incremental best/nearest tracking of the cash scan, over any suffix of
the enumerated candidate list and any already-accumulated state, agrees with
`List.argAux` folded over the eligible candidates. -/
theorem cashScanStep_foldl (o_start : Int) (dn : String) (mins : Option Int)
    (used : List Nat) (l : List (Nat × PosCand)) :
    ∀ m : Option (Nat × PosCand),
      l.foldl (cashScanStep o_start dn mins used)
        ⟨m.map (fun ip => ⟨ip.1, minutesBetween ip.2.row.created_time o_start,
            ip.2.row.cash_paid⟩),
         m.map (fun ip => ⟨minutesBetween ip.2.row.created_time o_start,
            ip.2.row.created_time, ip.2.row.cash_paid⟩)⟩
      = ⟨((l.filter (cashEligible dn mins used)).foldl
            (List.argAux fun b c =>
              (fun ip => minutesBetween ip.2.row.created_time o_start) b
                < (fun ip => minutesBetween ip.2.row.created_time o_start) c) m).map
            (fun ip => ⟨ip.1, minutesBetween ip.2.row.created_time o_start,
              ip.2.row.cash_paid⟩),
         ((l.filter (cashEligible dn mins used)).foldl
            (List.argAux fun b c =>
              (fun ip => minutesBetween ip.2.row.created_time o_start) b
                < (fun ip => minutesBetween ip.2.row.created_time o_start) c) m).map
            (fun ip => ⟨minutesBetween ip.2.row.created_time o_start,
              ip.2.row.created_time, ip.2.row.cash_paid⟩)⟩ := by
  induction l with
  | nil => intro m; simp
  | cons x t ih =>
    intro m
    rw [List.foldl_cons, List.filter_cons]
    by_cases he : cashEligible dn mins used x = true
    · rw [if_pos he, List.foldl_cons]
      have hstep : cashScanStep o_start dn mins used
          ⟨m.map (fun ip => ⟨ip.1, minutesBetween ip.2.row.created_time o_start,
              ip.2.row.cash_paid⟩),
           m.map (fun ip => ⟨minutesBetween ip.2.row.created_time o_start,
              ip.2.row.created_time, ip.2.row.cash_paid⟩)⟩ x
          = ⟨(List.argAux (fun b c =>
                (fun ip => minutesBetween ip.2.row.created_time o_start) b
                  < (fun ip => minutesBetween ip.2.row.created_time o_start) c) m x).map
              (fun ip => ⟨ip.1, minutesBetween ip.2.row.created_time o_start,
                ip.2.row.cash_paid⟩),
             (List.argAux (fun b c =>
                (fun ip => minutesBetween ip.2.row.created_time o_start) b
                  < (fun ip => minutesBetween ip.2.row.created_time o_start) c) m x).map
              (fun ip => ⟨minutesBetween ip.2.row.created_time o_start,
                ip.2.row.created_time, ip.2.row.cash_paid⟩)⟩ := by
        cases m with
        | none => simp [cashScanStep, he, List.argAux]
        | some c =>
          by_cases hlt : minutesBetween x.2.row.created_time o_start
              < minutesBetween c.2.row.created_time o_start
          · simp [cashScanStep, he, List.argAux, hlt]
          · simp [cashScanStep, he, List.argAux, hlt]
      rw [hstep]
      exact ih _
    · rw [if_neg he]
      have hstep : cashScanStep o_start dn mins used
          ⟨m.map (fun ip => ⟨ip.1, minutesBetween ip.2.row.created_time o_start,
              ip.2.row.cash_paid⟩),
           m.map (fun ip => ⟨minutesBetween ip.2.row.created_time o_start,
              ip.2.row.created_time, ip.2.row.cash_paid⟩)⟩ x
          = ⟨m.map (fun ip => ⟨ip.1, minutesBetween ip.2.row.created_time o_start,
              ip.2.row.cash_paid⟩),
             m.map (fun ip => ⟨minutesBetween ip.2.row.created_time o_start,
              ip.2.row.created_time, ip.2.row.cash_paid⟩)⟩ := by
        simp [cashScanStep, he]
      rw [hstep]
      exact ih m

/-- The cash scan for one order returns exactly the first-minimal (by time
distance) eligible candidate, both as the accepted best and as the nearest
diagnostics. -/
theorem cashScan_eq_argmin (o_start : Int) (dn : String) (mins : Option Int)
    (used : List Nat) (cands : List PosCand) :
    cashScan o_start dn mins used cands =
      ⟨((cands.enum.filter (cashEligible dn mins used)).argmin
          (fun ip => minutesBetween ip.2.row.created_time o_start)).map
          (fun ip => ⟨ip.1, minutesBetween ip.2.row.created_time o_start,
            ip.2.row.cash_paid⟩),
       ((cands.enum.filter (cashEligible dn mins used)).argmin
          (fun ip => minutesBetween ip.2.row.created_time o_start)).map
          (fun ip => ⟨minutesBetween ip.2.row.created_time o_start,
            ip.2.row.created_time, ip.2.row.cash_paid⟩)⟩ := by
  have h := cashScanStep_foldl o_start dn mins used cands.enum none
  simpa [cashScan, List.argmin] using h

/-- With a non-empty normalized designer, the code's eligibility guard is the
claim's candidate condition. -/
theorem cashEligible_eq_claim (dn : String) (hdn : ¬ dn = "") (mins : Option Int)
    (used : List Nat) :
    cashEligible dn mins used = claimCashEligible used dn mins := by
  funext ip
  unfold cashEligible claimCashEligible
  simp [hdn, bne, Bool.not_not]

/-- One order of the cash matcher behaves exactly as the claim states it. -/
theorem processOrder_eq_claim (tol : Int) (cashOf : String → Rat) (cands : List PosCand)
    (st : CashPassState) (o : OrdersRow) :
    processOrder tol cashOf cands st o = claimProcessOrder tol cashOf cands st o := by
  unfold processOrder claimProcessOrder
  by_cases hdn : normalize_name o.designer = ""
  · rw [if_pos hdn, if_pos hdn]
  · rw [if_neg hdn, if_neg hdn]
    rw [cashScan_eq_argmin, cashEligible_eq_claim _ hdn]
    unfold claimNearestCand
    cases harg : (cands.enum.filter (claimCashEligible st.used_pos
        (normalize_name o.designer) (extract_minutes o.service))).argmin
        (fun ip => minutesBetween ip.2.row.created_time o.service_start) with
    | none => simp [harg]
    | some ip => simp [harg]

/-- The whole per-order loop of the cash matcher equals the claim-side loop. -/
theorem cashPass_eq_claim (tol : Int) (cashOf : String → Rat) (cands : List PosCand)
    (orders : List OrdersRow) :
    cashPass tol cashOf cands orders
      = orders.foldl (claimProcessOrder tol cashOf cands) ⟨[], []⟩ := by
  unfold cashPass
  have h : processOrder tol cashOf cands = claimProcessOrder tol cashOf cands :=
    funext fun st => funext fun o => processOrder_eq_claim tol cashOf cands st o
  rw [h]

/-- The nearest-order scan for a leftover POS row, over any prefix state,
agrees with `List.argAux` folded over the same-designer orders. -/
theorem posNearScan_foldl_eq (c : PosCand) (cashOf : String → Rat) (l : List OrdersRow) :
    ∀ m : Option OrdersRow,
      l.foldl (posNearStep cashOf c)
        (m.map (fun o => (⟨minutesBetween c.row.created_time o.service_start,
          o.service_start, cashOf o.bill_id⟩ : CashNear)))
      = ((l.filter (fun o => normalize_name o.designer == c.designer_norm)).foldl
          (List.argAux fun b cc =>
            (fun o => minutesBetween c.row.created_time o.service_start) b
              < (fun o => minutesBetween c.row.created_time o.service_start) cc) m).map
          (fun o => (⟨minutesBetween c.row.created_time o.service_start,
            o.service_start, cashOf o.bill_id⟩ : CashNear)) := by
  induction l with
  | nil => intro m; simp
  | cons x t ih =>
    intro m
    by_cases he : normalize_name x.designer = c.designer_norm
    · have hfc : List.filter (fun o => normalize_name o.designer == c.designer_norm) (x :: t)
          = x :: List.filter (fun o => normalize_name o.designer == c.designer_norm) t := by
        simp [List.filter_cons, he]
      rw [List.foldl_cons, hfc, List.foldl_cons]
      have hstep : posNearStep cashOf c
          (m.map (fun o => (⟨minutesBetween c.row.created_time o.service_start,
            o.service_start, cashOf o.bill_id⟩ : CashNear))) x
          = (List.argAux (fun b cc =>
              (fun o => minutesBetween c.row.created_time o.service_start) b
                < (fun o => minutesBetween c.row.created_time o.service_start) cc) m x).map
              (fun o => (⟨minutesBetween c.row.created_time o.service_start,
                o.service_start, cashOf o.bill_id⟩ : CashNear)) := by
        cases m with
        | none => simp [posNearStep, he, List.argAux]
        | some n =>
          by_cases hlt : minutesBetween c.row.created_time x.service_start
              < minutesBetween c.row.created_time n.service_start
          · simp [posNearStep, he, List.argAux, hlt]
          · simp [posNearStep, he, List.argAux, hlt]
      rw [hstep]
      exact ih _
    · have hfc : List.filter (fun o => normalize_name o.designer == c.designer_norm) (x :: t)
          = List.filter (fun o => normalize_name o.designer == c.designer_norm) t := by
        simp [List.filter_cons, he]
      rw [List.foldl_cons, hfc]
      have hstep : posNearStep cashOf c
          (m.map (fun o => (⟨minutesBetween c.row.created_time o.service_start,
            o.service_start, cashOf o.bill_id⟩ : CashNear))) x
          = m.map (fun o => (⟨minutesBetween c.row.created_time o.service_start,
              o.service_start, cashOf o.bill_id⟩ : CashNear)) := by
        simp [posNearStep, he]
      rw [hstep]
      exact ih m

/-- The leftover-POS nearest-order context equals the claim-side argmin form. -/
theorem posNearScan_eq_claim (scoped_orders : List OrdersRow) (cashOf : String → Rat)
    (c : PosCand) :
    posNearScan scoped_orders cashOf c = claimPosNear scoped_orders cashOf c := by
  have h := posNearScan_foldl_eq c cashOf scoped_orders none
  simpa [posNearScan, claimPosNear, List.argmin] using h

/-- The leftover-POS mismatch rows equal the claim-side ones. -/
theorem posMismatches_eq_claim (scoped_orders : List OrdersRow) (cashOf : String → Rat)
    (cands : List PosCand) (used_pos : List Nat) :
    posMismatches scoped_orders cashOf cands used_pos
      = claimPosMismatches scoped_orders cashOf cands used_pos := by
  unfold posMismatches claimPosMismatches
  simp only [posNearScan_eq_claim]

/-! ## C1: the cash matching pass -/

/-- C1 counterexample: POS data *is* supplied (an empty list, so no scoped POS
row exists), one in-scope order has an empty normalized designer, and yet no
Hotcake-side mismatch is emitted — the code runs the whole pass only when the
scoped POS list is non-empty, so the claim's "run whenever POS data is
supplied" fails. -/
theorem C1_counterexample_gating :
    (build_cash_recon samplePeriod "S" [sampleOrderNoDesigner] ⟨[], []⟩ (some []) none
        "settlement_time" 30).hotcake_time_mismatches = []
    ∧ sampleOrderNoDesigner ∈ scopedOrdersOf samplePeriod "S" [sampleOrderNoDesigner]
    ∧ normalize_name sampleOrderNoDesigner.designer = ""
    ∧ (some ([] : List PosRow)).isSome = true := by
  exact ⟨rfl, by decide, by decide, rfl⟩

/-- C1 (amended: the pass runs whenever the scoped POS list is non-empty,
rather than whenever POS data is supplied): the cash matching pass of
`build_cash_recon` emits exactly the mismatch rows described by the claim —
designer-missing orders yield one mismatch each and consume nothing; every
other order accepts and consumes the nearest unused candidate (same normalized
designer, compatible durations) iff its time distance is within tolerance and
its cash-paid amount equals the order's aggregated service cash within
epsilon, emitting exactly one Hotcake-side mismatch otherwise; and every
never-consumed scoped POS row is emitted as exactly one POS-side mismatch with
same-designer nearest-order context. -/
theorem C1_cash_pass_refinement (period : Period) (store : String) (orders : List OrdersRow)
    (bills : HotcakeBills) (pos_orders : Option (List PosRow))
    (card_machine_rows : Option (List CardMachineRow)) (topup_mode : String)
    (time_tolerance_minutes : Int) :
    (build_cash_recon period store orders bills pos_orders card_machine_rows topup_mode
        time_tolerance_minutes).hotcake_time_mismatches
      = (claimCashReconPass period store orders bills pos_orders
          time_tolerance_minutes).hotcake_time_mismatches
    ∧ (build_cash_recon period store orders bills pos_orders card_machine_rows topup_mode
        time_tolerance_minutes).pos_time_mismatches
      = (claimCashReconPass period store orders bills pos_orders
          time_tolerance_minutes).pos_time_mismatches := by
  simp only [build_cash_recon, claimCashReconPass, ordersScan_eq, serviceRows_guard_eq,
    cashPass_eq_claim, posMismatches_eq_claim]
  cases pos_orders with
  | none => exact ⟨rfl, rfl⟩
  | some ps =>
    by_cases hp : (ps.filter (fun p => in_period p.created_time period)).isEmpty = true
    · simp [hp]
    · simp [hp]

/-! ## The card-matcher scan computes a first-minimal (argmin) candidate -/

/-- The incremental best/nearest tracking of the card scan agrees with
`List.argAux` folded over the eligible candidates. -/
theorem cardScanStep_foldl (card_time : Int) (pay_type : String) (paid_amount : Rat)
    (used : List Nat) (l : List (Nat × HotcakeCardCand)) :
    ∀ m : Option (Nat × HotcakeCardCand),
      l.foldl (cardScanStep card_time pay_type paid_amount used)
        ⟨m.map (fun ih => ⟨ih.1, minutesBetween card_time ih.2.time⟩),
         m.map (fun ih => ⟨minutesBetween card_time ih.2.time, ih.2.time⟩)⟩
      = ⟨((l.filter (cardEligible pay_type paid_amount used)).foldl
            (List.argAux fun b c =>
              (fun ih => minutesBetween card_time ih.2.time) b
                < (fun ih => minutesBetween card_time ih.2.time) c) m).map
            (fun ih => ⟨ih.1, minutesBetween card_time ih.2.time⟩),
         ((l.filter (cardEligible pay_type paid_amount used)).foldl
            (List.argAux fun b c =>
              (fun ih => minutesBetween card_time ih.2.time) b
                < (fun ih => minutesBetween card_time ih.2.time) c) m).map
            (fun ih => ⟨minutesBetween card_time ih.2.time, ih.2.time⟩)⟩ := by
  induction l with
  | nil => intro m; simp
  | cons x t ih =>
    intro m
    rw [List.foldl_cons, List.filter_cons]
    by_cases he : cardEligible pay_type paid_amount used x = true
    · rw [if_pos he, List.foldl_cons]
      have hstep : cardScanStep card_time pay_type paid_amount used
          ⟨m.map (fun ih => ⟨ih.1, minutesBetween card_time ih.2.time⟩),
           m.map (fun ih => ⟨minutesBetween card_time ih.2.time, ih.2.time⟩)⟩ x
          = ⟨(List.argAux (fun b c =>
                (fun ih => minutesBetween card_time ih.2.time) b
                  < (fun ih => minutesBetween card_time ih.2.time) c) m x).map
              (fun ih => ⟨ih.1, minutesBetween card_time ih.2.time⟩),
             (List.argAux (fun b c =>
                (fun ih => minutesBetween card_time ih.2.time) b
                  < (fun ih => minutesBetween card_time ih.2.time) c) m x).map
              (fun ih => ⟨minutesBetween card_time ih.2.time, ih.2.time⟩)⟩ := by
        cases m with
        | none => simp [cardScanStep, he, List.argAux]
        | some c =>
          by_cases hlt : minutesBetween card_time x.2.time < minutesBetween card_time c.2.time
          · simp [cardScanStep, he, List.argAux, hlt]
          · simp [cardScanStep, he, List.argAux, hlt]
      rw [hstep]
      exact ih _
    · rw [if_neg he]
      have hstep : cardScanStep card_time pay_type paid_amount used
          ⟨m.map (fun ih => ⟨ih.1, minutesBetween card_time ih.2.time⟩),
           m.map (fun ih => ⟨minutesBetween card_time ih.2.time, ih.2.time⟩)⟩ x
          = ⟨m.map (fun ih => ⟨ih.1, minutesBetween card_time ih.2.time⟩),
             m.map (fun ih => ⟨minutesBetween card_time ih.2.time, ih.2.time⟩)⟩ := by
        simp [cardScanStep, he]
      rw [hstep]
      exact ih m

/-- The card scan returns exactly the first-minimal (by time distance)
eligible candidate. -/
theorem cardScan_eq_argmin (card_time : Int) (pay_type : String) (paid_amount : Rat)
    (used : List Nat) (cands : List HotcakeCardCand) :
    cardScan card_time pay_type paid_amount used cands =
      ⟨((cands.enum.filter (cardEligible pay_type paid_amount used)).argmin
          (fun ih => minutesBetween card_time ih.2.time)).map
          (fun ih => ⟨ih.1, minutesBetween card_time ih.2.time⟩),
       ((cands.enum.filter (cardEligible pay_type paid_amount used)).argmin
          (fun ih => minutesBetween card_time ih.2.time)).map
          (fun ih => ⟨minutesBetween card_time ih.2.time, ih.2.time⟩)⟩ := by
  have h := cardScanStep_foldl card_time pay_type paid_amount used cands.enum none
  simpa [cardScan, List.argmin] using h

/-- The code's card eligibility guard is the claim's candidate condition. -/
theorem cardEligible_eq_claim (pay_type : String) (paid_amount : Rat) (used : List Nat) :
    cardEligible pay_type paid_amount used = claimCardEligible used pay_type paid_amount := by
  funext ih
  unfold cardEligible claimCardEligible
  congr 1
  · simp [bne, Bool.not_not]
  · simp only [← decide_not, decide_eq_decide]
    exact not_lt

/-- An element selected by the argmin over the filtered enumerated candidates
is the list entry at its own index. -/
theorem argmin_filter_enum_getD (cands : List HotcakeCardCand) (p : Nat × HotcakeCardCand → Bool)
    (f : Nat × HotcakeCardCand → Rat) (ip : Nat × HotcakeCardCand)
    (h : (cands.enum.filter p).argmin f = some ip) :
    cands[ip.1]?.getD dummyCardCand = ip.2 := by
  have hmem : ip ∈ cands.enum.filter p := List.argmin_mem (Option.mem_def.mpr h)
  have henum : ip ∈ cands.enum := (List.mem_filter.mp hmem).1
  have hget := List.mem_enum_iff_getElem?.mp henum
  rw [hget]
  rfl

/-- One card row of the card matcher behaves exactly as the claim states it. -/
theorem processCard_eq_claim (store : String) (tol : Int) (cands : List HotcakeCardCand)
    (st : CardPassState) (card : CardMachineRow) :
    processCard store tol cands st card = claimProcessCard store tol cands st card := by
  unfold processCard claimProcessCard
  by_cases hpt : normalize_pay_method card.pay_method ≠ "credit_card"
      ∧ normalize_pay_method card.pay_method ≠ "linepay"
  · rw [if_pos hpt, if_pos hpt]
  · rw [if_neg hpt, if_neg hpt]
    rw [cardScan_eq_argmin, cardEligible_eq_claim]
    unfold claimNearestCardCand
    cases harg : (cands.enum.filter (claimCardEligible st.used_hotcake
        (normalize_pay_method card.pay_method) card.paid_amount)).argmin
        (fun ih => minutesBetween card.transaction_time ih.2.time) with
    | none => simp [harg]
    | some ih =>
      have hgd := argmin_filter_enum_getD cands _ _ ih harg
      simp [harg, hgd]

/-- The whole per-card loop of the card matcher equals the claim-side loop. -/
theorem cardPass_eq_claim (store : String) (tol : Int) (cands : List HotcakeCardCand)
    (scoped_card : List CardMachineRow) :
    cardPass store tol cands scoped_card
      = scoped_card.foldl (claimProcessCard store tol cands) ⟨[], [], []⟩ := by
  unfold cardPass
  have h : processCard store tol cands = claimProcessCard store tol cands :=
    funext fun st => funext fun card => processCard_eq_claim store tol cands st card
  rw [h]

/-! ## C5: the card matching pass -/

/-- C5 counterexample: card-machine data *is* supplied (an empty list), one
scoped service bill carries a positive credit-card amount — an unconsumed
Hotcake tender candidate — and yet no mismatch tagged `"hotcake"` is emitted:
the code runs the card pass only when the scoped card list is non-empty, so
the claim's "run whenever card-machine data is supplied" fails. -/
theorem C5_counterexample_gating :
    (build_cash_recon samplePeriod "S" [sampleOrderB1] ⟨[sampleBillB1], []⟩ none (some [])
        "settlement_time" 30).card_mismatches = []
    ∧ hotcakeCardCandidatesOf
        (build_cash_recon samplePeriod "S" [sampleOrderB1] ⟨[sampleBillB1], []⟩ none (some [])
          "settlement_time" 30).service_bill_rows ≠ []
    ∧ (some ([] : List CardMachineRow)).isSome = true := by
  refine ⟨rfl, ?_, rfl⟩
  decide

/-- C5 (amended: the pass runs whenever the scoped card list is non-empty,
rather than whenever card-machine data is supplied): the card matching pass of
`build_cash_recon` behaves exactly as the claim states — unrecognized pay
methods are emitted at once as card-side mismatches with no time or bill
context; each recognized card row accepts and consumes the nearest-in-time
unused Hotcake tender candidate of the same pay type within epsilon of its
amount iff that nearest distance is within tolerance; unaccepted card rows are
emitted tagged `"card"`, and afterwards every unconsumed Hotcake candidate is
emitted tagged `"hotcake"`. -/
theorem C5_card_pass_refinement (period : Period) (store : String) (orders : List OrdersRow)
    (bills : HotcakeBills) (pos_orders : Option (List PosRow))
    (card_machine_rows : Option (List CardMachineRow)) (topup_mode : String)
    (time_tolerance_minutes : Int) :
    (build_cash_recon period store orders bills pos_orders card_machine_rows topup_mode
        time_tolerance_minutes).card_matches
      = (claimCardReconPass period store orders bills card_machine_rows
          time_tolerance_minutes).card_matches
    ∧ (build_cash_recon period store orders bills pos_orders card_machine_rows topup_mode
        time_tolerance_minutes).card_mismatches
      = (claimCardReconPass period store orders bills card_machine_rows
          time_tolerance_minutes).card_mismatches := by
  simp only [build_cash_recon, claimCardReconPass, ordersScan_eq, serviceRows_guard_eq,
    cardPass_eq_claim]
  cases card_machine_rows with
  | none => exact ⟨rfl, rfl⟩
  | some rs =>
    by_cases hc : (rs.filter (fun r => normalize_store r.store == normalize_store store
        && in_period r.transaction_time period)).isEmpty = true
    · simp [hc]
    · simp [hc]

/-! ## C7: one-time consumption invariants -/

/-- An enumerated entry's index is below the list length. -/
theorem mem_enum_fst_lt {α : Type} (l : List α) (x : Nat × α) (h : x ∈ l.enum) :
    x.1 < l.length := by
  have hg := List.mem_enum_iff_getElem?.mp h
  obtain ⟨hlt, -⟩ := List.getElem?_eq_some.mp hg
  exact hlt

/-- One step of the cash matcher either leaves the consumed-index list
unchanged or appends one fresh in-range index. -/
theorem processOrder_used_step (tol : Int) (cashOf : String → Rat) (cands : List PosCand)
    (st : CashPassState) (o : OrdersRow) :
    (processOrder tol cashOf cands st o).used_pos = st.used_pos
    ∨ ∃ i, (processOrder tol cashOf cands st o).used_pos = st.used_pos ++ [i]
        ∧ i < cands.length ∧ i ∉ st.used_pos := by
  unfold processOrder
  by_cases hdn : normalize_name o.designer = ""
  · rw [if_pos hdn]
    exact Or.inl rfl
  · rw [if_neg hdn]
    rw [cashScan_eq_argmin]
    cases harg : (cands.enum.filter (cashEligible (normalize_name o.designer)
        (extract_minutes o.service) st.used_pos)).argmin
        (fun ip => minutesBetween ip.2.row.created_time o.service_start) with
    | none => simp [harg]
    | some ip =>
      simp only [harg, Option.map_some']
      have hmem : ip ∈ cands.enum.filter (cashEligible (normalize_name o.designer)
          (extract_minutes o.service) st.used_pos) := List.argmin_mem (Option.mem_def.mpr harg)
      have helig := (List.mem_filter.mp hmem).2
      have henum := (List.mem_filter.mp hmem).1
      have hlt : ip.1 < cands.length := mem_enum_fst_lt _ _ henum
      have hfresh : ip.1 ∉ st.used_pos := by
        intro hin
        unfold cashEligible at helig
        simp [hin] at helig
      by_cases hacc : minutesBetween ip.2.row.created_time o.service_start
            ≤ (tol : Rat)
          ∧ |ip.2.row.cash_paid - cashOf o.bill_id| < eps
      · rw [if_pos hacc]
        exact Or.inr ⟨ip.1, rfl, hlt, hfresh⟩
      · rw [if_neg hacc]
        exact Or.inl rfl

/-- The cash matcher's consumed-index list stays duplicate-free, in range, and
grows by at most one per order. -/
theorem cashPass_foldl_invariant (tol : Int) (cashOf : String → Rat) (cands : List PosCand)
    (orders : List OrdersRow) :
    ∀ st : CashPassState, st.used_pos.Nodup → (∀ i ∈ st.used_pos, i < cands.length) →
      (orders.foldl (processOrder tol cashOf cands) st).used_pos.Nodup
      ∧ (∀ i ∈ (orders.foldl (processOrder tol cashOf cands) st).used_pos, i < cands.length)
      ∧ (orders.foldl (processOrder tol cashOf cands) st).used_pos.length
          ≤ st.used_pos.length + orders.length := by
  induction orders with
  | nil => intro st h1 h2; exact ⟨h1, h2, by simp⟩
  | cons o t ih =>
    intro st h1 h2
    rw [List.foldl_cons]
    rcases processOrder_used_step tol cashOf cands st o with h | ⟨i, hap, hlt, hfresh⟩
    · have := ih (processOrder tol cashOf cands st o) (h ▸ h1) (h ▸ h2)
      refine ⟨this.1, this.2.1, ?_⟩
      calc (t.foldl (processOrder tol cashOf cands)
              (processOrder tol cashOf cands st o)).used_pos.length
          ≤ (processOrder tol cashOf cands st o).used_pos.length + t.length := this.2.2
        _ = st.used_pos.length + t.length := by rw [h]
        _ ≤ st.used_pos.length + (o :: t).length := by simp only [List.length_cons]; omega
    · have hnd : (processOrder tol cashOf cands st o).used_pos.Nodup := by
        rw [hap]
        simp [List.nodup_append, h1, hfresh]
      have hbd : ∀ j ∈ (processOrder tol cashOf cands st o).used_pos, j < cands.length := by
        rw [hap]
        intro j hj
        rcases List.mem_append.mp hj with hj | hj
        · exact h2 j hj
        · simp at hj
          exact hj ▸ hlt
      have := ih (processOrder tol cashOf cands st o) hnd hbd
      refine ⟨this.1, this.2.1, ?_⟩
      calc (t.foldl (processOrder tol cashOf cands)
              (processOrder tol cashOf cands st o)).used_pos.length
          ≤ (processOrder tol cashOf cands st o).used_pos.length + t.length := this.2.2
        _ = st.used_pos.length + 1 + t.length := by rw [hap]; simp
        _ = st.used_pos.length + (o :: t).length := by simp only [List.length_cons]; omega

/-- One step of the card matcher: the consumed-index list either stays put or
gains one fresh in-range index, and it grows in lockstep with the emitted
match rows. -/
theorem processCard_used_step (store : String) (tol : Int) (cands : List HotcakeCardCand)
    (st : CardPassState) (card : CardMachineRow) :
    ((processCard store tol cands st card).used_hotcake = st.used_hotcake
      ∧ (processCard store tol cands st card).card_matches = st.card_matches)
    ∨ ∃ i row, (processCard store tol cands st card).used_hotcake = st.used_hotcake ++ [i]
        ∧ (processCard store tol cands st card).card_matches = st.card_matches ++ [row]
        ∧ i < cands.length ∧ i ∉ st.used_hotcake := by
  unfold processCard
  by_cases hpt : normalize_pay_method card.pay_method ≠ "credit_card"
      ∧ normalize_pay_method card.pay_method ≠ "linepay"
  · rw [if_pos hpt]
    exact Or.inl ⟨rfl, rfl⟩
  · rw [if_neg hpt]
    rw [cardScan_eq_argmin]
    cases harg : (cands.enum.filter (cardEligible (normalize_pay_method card.pay_method)
        card.paid_amount st.used_hotcake)).argmin
        (fun ih => minutesBetween card.transaction_time ih.2.time) with
    | none => simp [harg]
    | some ih =>
      simp only [harg, Option.map_some']
      have hmem : ih ∈ cands.enum.filter (cardEligible (normalize_pay_method card.pay_method)
          card.paid_amount st.used_hotcake) := List.argmin_mem (Option.mem_def.mpr harg)
      have helig := (List.mem_filter.mp hmem).2
      have henum := (List.mem_filter.mp hmem).1
      have hlt : ih.1 < cands.length := mem_enum_fst_lt _ _ henum
      have hfresh : ih.1 ∉ st.used_hotcake := by
        intro hin
        unfold cardEligible at helig
        simp [hin] at helig
      by_cases hacc : minutesBetween card.transaction_time ih.2.time ≤ (tol : Rat)
      · rw [if_pos hacc]
        exact Or.inr ⟨ih.1, _, rfl, rfl, hlt, hfresh⟩
      · rw [if_neg hacc]
        exact Or.inl ⟨rfl, rfl⟩

/-- The card matcher's consumed-index list stays duplicate-free and in range,
matches grow in lockstep with consumption, and at most one match is emitted
per card row. -/
theorem cardPass_foldl_invariant (store : String) (tol : Int) (cands : List HotcakeCardCand)
    (cards : List CardMachineRow) :
    ∀ st : CardPassState, st.used_hotcake.Nodup →
      (∀ i ∈ st.used_hotcake, i < cands.length) →
      (cards.foldl (processCard store tol cands) st).used_hotcake.Nodup
      ∧ (∀ i ∈ (cards.foldl (processCard store tol cands) st).used_hotcake, i < cands.length)
      ∧ ((cards.foldl (processCard store tol cands) st).used_hotcake.length
          + st.card_matches.length
        = (cards.foldl (processCard store tol cands) st).card_matches.length
          + st.used_hotcake.length)
      ∧ (cards.foldl (processCard store tol cands) st).used_hotcake.length
          ≤ st.used_hotcake.length + cards.length := by
  induction cards with
  | nil =>
    intro st h1 h2
    exact ⟨h1, h2, by simp only [List.foldl_nil]; omega, by simp⟩
  | cons card t ih =>
    intro st h1 h2
    rw [List.foldl_cons]
    rcases processCard_used_step store tol cands st card with ⟨hu, hm⟩ | ⟨i, row, hu, hm, hlt, hfresh⟩
    · have := ih (processCard store tol cands st card) (hu ▸ h1) (hu ▸ h2)
      refine ⟨this.1, this.2.1, ?_, ?_⟩
      · have h3 := this.2.2.1
        rw [hu, hm] at h3
        omega
      · have h4 := this.2.2.2
        rw [hu] at h4
        simp only [List.length_cons]
        omega
    · have hnd : (processCard store tol cands st card).used_hotcake.Nodup := by
        rw [hu]
        simp [List.nodup_append, h1, hfresh]
      have hbd : ∀ j ∈ (processCard store tol cands st card).used_hotcake, j < cands.length := by
        rw [hu]
        intro j hj
        rcases List.mem_append.mp hj with hj | hj
        · exact h2 j hj
        · simp at hj
          exact hj ▸ hlt
      have := ih (processCard store tol cands st card) hnd hbd
      refine ⟨this.1, this.2.1, ?_, ?_⟩
      · have h3 := this.2.2.1
        rw [hu, hm] at h3
        simp only [List.length_append, List.length_singleton] at h3
        omega
      · have h4 := this.2.2.2
        rw [hu] at h4
        simp only [List.length_append, List.length_singleton] at h4
        simp only [List.length_cons]
        omega

/-- Counting indices with a property never exceeds the count over the full
index range, for duplicate-free in-range index lists. -/
theorem countP_le_countP_range (used : List Nat) (n : Nat) (hnd : used.Nodup)
    (hlt : ∀ i ∈ used, i < n) (p : Nat → Bool) :
    used.countP p ≤ (List.range n).countP p := by
  rw [List.countP_eq_length_filter, List.countP_eq_length_filter]
  rw [← List.toFinset_card_of_nodup (hnd.filter _),
    ← List.toFinset_card_of_nodup ((List.nodup_range n).filter _)]
  apply Finset.card_le_card
  intro x hx
  rw [List.mem_toFinset, List.mem_filter] at hx
  rw [List.mem_toFinset, List.mem_filter]
  exact ⟨List.mem_range.mpr (hlt x hx.1), hx.2⟩

/-- Counting over the index range through `getD` is counting the list itself. -/
theorem countP_range_getD {α : Type} (l : List α) (d : α) (q : α → Bool) :
    (List.range l.length).countP (fun i => q (l.getD i d)) = l.countP q := by
  induction l using List.reverseRecOn with
  | nil => simp
  | append_singleton t a iht =>
    rw [List.length_append, List.length_singleton, List.range_succ, List.countP_append,
      List.countP_append]
    have h1 : (List.range t.length).countP (fun i => q ((t ++ [a]).getD i d))
        = (List.range t.length).countP (fun i => q (t.getD i d)) := by
      apply List.countP_congr
      intro i hi
      have hilt : i < t.length := List.mem_range.mp hi
      have hg : (t ++ [a]).getD i d = t.getD i d := by
        rw [List.getD_eq_getElem?_getD, List.getD_eq_getElem?_getD,
          List.getElem?_append_left hilt]
      rw [hg]
    have h2 : ([t.length].countP (fun i => q ((t ++ [a]).getD i d))) = [a].countP q := by
      rw [List.countP_cons, List.countP_cons, List.countP_nil, List.countP_nil]
      have hg : (t ++ [a]).getD t.length d = a := by
        rw [List.getD_eq_getElem?_getD, List.getElem?_concat_length]
        rfl
      rw [hg]
    rw [h1, h2, iht]

/-- Per-partition counting bound: among a duplicate-free in-range consumed-index
list, the number of indices whose candidate satisfies any property is at most
the number of candidates satisfying it. -/
theorem countP_used_le_cands {α : Type} (used : List Nat) (cands : List α) (d : α)
    (hnd : used.Nodup) (hlt : ∀ i ∈ used, i < cands.length) (q : α → Bool) :
    used.countP (fun i => q (cands.getD i d)) ≤ cands.countP q := by
  calc used.countP (fun i => q (cands.getD i d))
      ≤ (List.range cands.length).countP (fun i => q (cands.getD i d)) :=
        countP_le_countP_range used cands.length hnd hlt _
    _ = cands.countP q := countP_range_getD cands d q

/-- C7: in both matching passes of one run, no POS row and no Hotcake tender
candidate is consumed twice (the consumed-index lists are duplicate-free and
in range); the number of accepted matches equals the number of consumed
candidates and never exceeds the size of either pool, also per partition: for
every property of candidates (e.g. a fixed designer, or a fixed pay type), the
consumed candidates satisfying it are at most the pool rows satisfying it. -/
theorem C7_consume_at_most_once (tol : Int) (cashOf : String → Rat) (cands : List PosCand)
    (orders : List OrdersRow) (store : String) (ctol : Int)
    (ccands : List HotcakeCardCand) (cards : List CardMachineRow) :
    (cashPass tol cashOf cands orders).used_pos.Nodup
    ∧ (∀ i ∈ (cashPass tol cashOf cands orders).used_pos, i < cands.length)
    ∧ (cashPass tol cashOf cands orders).used_pos.length ≤ cands.length
    ∧ (cashPass tol cashOf cands orders).used_pos.length ≤ orders.length
    ∧ (∀ q : PosCand → Bool,
        (cashPass tol cashOf cands orders).used_pos.countP
          (fun i => q (cands.getD i dummyPosCand)) ≤ cands.countP q)
    ∧ (cardPass store ctol ccands cards).used_hotcake.Nodup
    ∧ (∀ i ∈ (cardPass store ctol ccands cards).used_hotcake, i < ccands.length)
    ∧ (cardPass store ctol ccands cards).card_matches.length
        = (cardPass store ctol ccands cards).used_hotcake.length
    ∧ (cardPass store ctol ccands cards).used_hotcake.length ≤ ccands.length
    ∧ (cardPass store ctol ccands cards).card_matches.length ≤ cards.length
    ∧ (∀ q : HotcakeCardCand → Bool,
        (cardPass store ctol ccands cards).used_hotcake.countP
          (fun i => q (ccands.getD i dummyCardCand)) ≤ ccands.countP q) := by
  have hcash := cashPass_foldl_invariant tol cashOf cands orders ⟨[], []⟩ (by simp) (by simp)
  have hcard := cardPass_foldl_invariant store ctol ccands cards ⟨[], [], []⟩ (by simp) (by simp)
  have hcashpass : cashPass tol cashOf cands orders
      = orders.foldl (processOrder tol cashOf cands) ⟨[], []⟩ := rfl
  have hcardpass : cardPass store ctol ccands cards
      = cards.foldl (processCard store ctol ccands) ⟨[], [], []⟩ := rfl
  rw [hcashpass, hcardpass]
  obtain ⟨hnd1, hbd1, hlen1⟩ := hcash
  obtain ⟨hnd2, hbd2, hmatch2, hlen2⟩ := hcard
  simp only [List.length_nil, Nat.add_zero, Nat.zero_add] at hlen1 hmatch2 hlen2
  have hle1 : (orders.foldl (processOrder tol cashOf cands) ⟨[], []⟩).used_pos.length
      ≤ cands.length := by
    have := countP_used_le_cands _ cands dummyPosCand hnd1 hbd1 (fun _ => true)
    simpa using this
  have hle2 : (cards.foldl (processCard store ctol ccands) ⟨[], [], []⟩).used_hotcake.length
      ≤ ccands.length := by
    have := countP_used_le_cands _ ccands dummyCardCand hnd2 hbd2 (fun _ => true)
    simpa using this
  refine ⟨hnd1, hbd1, hle1, by simpa using hlen1, ?_, hnd2, hbd2, by omega, hle2, ?_, ?_⟩
  · intro q
    exact countP_used_le_cands _ cands dummyPosCand hnd1 hbd1 q
  · omega
  · intro q
    exact countP_used_le_cands _ ccands dummyCardCand hnd2 hbd2 q

/-- C7 witness: the invariants instantiated on the concrete two-order,
one-candidate scenario. -/
theorem C7_consume_at_most_once_witness :
    (cashPass 30 c8CashOf [mkPosCand c8PosGood] [c8Order1, c8Order2]).used_pos.Nodup
    ∧ (cashPass 30 c8CashOf [mkPosCand c8PosGood] [c8Order1, c8Order2]).used_pos.length
        ≤ [c8Order1, c8Order2].length :=
  ⟨(C7_consume_at_most_once 30 c8CashOf [mkPosCand c8PosGood] [c8Order1, c8Order2]
      "S" 30 [] []).1,
   (C7_consume_at_most_once 30 c8CashOf [mkPosCand c8PosGood] [c8Order1, c8Order2]
      "S" 30 [] []).2.2.2.1⟩

/-! ## C8: order dependence of the cash matcher -/

/-- C8 (amended: the satisfying row must additionally be the *only*
candidate-eligible row for the two orders): with a scoped order list
`[o1, o2]` of identical non-empty normalized designer and exactly one
candidate-eligible POS row — eligible for both and satisfying the tolerance
and amount conditions for both — the earlier order `o1` consumes the row and
`o2` is reported as a Hotcake-side mismatch, even though `o2` is strictly
nearer in time. -/
theorem C8_order_dependence_amended (tol : Int) (cashOf : String → Rat)
    (cands : List PosCand) (o1 o2 : OrdersRow) (i : Nat) (c : PosCand)
    (hdn1 : ¬ normalize_name o1.designer = "")
    (hdn2 : ¬ normalize_name o2.designer = "")
    (huniq1 : cands.enum.filter (claimCashEligible [] (normalize_name o1.designer)
        (extract_minutes o1.service)) = [(i, c)])
    (huniq2 : cands.enum.filter (claimCashEligible [] (normalize_name o2.designer)
        (extract_minutes o2.service)) = [(i, c)])
    (h1t : minutesBetween c.row.created_time o1.service_start ≤ (tol : Rat))
    (h1c : |c.row.cash_paid - cashOf o1.bill_id| < eps)
    (h2t : minutesBetween c.row.created_time o2.service_start ≤ (tol : Rat))
    (h2c : |c.row.cash_paid - cashOf o2.bill_id| < eps)
    (hnear : minutesBetween c.row.created_time o2.service_start
        < minutesBetween c.row.created_time o1.service_start) :
    cashPass tol cashOf cands [o1, o2]
      = ⟨[i], [hotcakeMismatchRowOf o2 (extract_minutes o2.service) (cashOf o2.bill_id)
          none]⟩ := by
  rw [cashPass_eq_claim]
  rw [show ([o1, o2].foldl (claimProcessOrder tol cashOf cands) ⟨[], []⟩)
      = claimProcessOrder tol cashOf cands
          (claimProcessOrder tol cashOf cands ⟨[], []⟩ o1) o2 from rfl]
  have hstep1 : claimProcessOrder tol cashOf cands ⟨[], []⟩ o1
      = (⟨[i], []⟩ : CashPassState) := by
    unfold claimProcessOrder claimNearestCand
    rw [if_neg hdn1]
    simp only [huniq1, List.argmin_singleton]
    rw [if_pos ⟨h1t, h1c⟩]
    simp
  rw [hstep1]
  have hempty : cands.enum.filter (claimCashEligible [i] (normalize_name o2.designer)
      (extract_minutes o2.service)) = [] := by
    rw [List.filter_eq_nil_iff]
    intro x hx
    by_cases hxi : x.1 = i
    · simp [claimCashEligible, hxi, List.contains, List.elem]
    · intro habs
      have hbase : claimCashEligible [] (normalize_name o2.designer)
          (extract_minutes o2.service) x = true := by
        unfold claimCashEligible at habs ⊢
        simp only [Bool.and_eq_true] at habs ⊢
        exact ⟨⟨rfl, habs.1.2⟩, habs.2⟩
      have hxmem : x ∈ cands.enum.filter (claimCashEligible [] (normalize_name o2.designer)
          (extract_minutes o2.service)) := List.mem_filter.mpr ⟨hx, hbase⟩
      rw [huniq2] at hxmem
      have : x = (i, c) := by simpa using hxmem
      exact hxi (by rw [this])
  have hstep2 : claimProcessOrder tol cashOf cands (⟨[i], []⟩ : CashPassState) o2
      = ⟨[i], [hotcakeMismatchRowOf o2 (extract_minutes o2.service) (cashOf o2.bill_id)
          none]⟩ := by
    unfold claimProcessOrder claimNearestCand
    rw [if_neg hdn2]
    simp only [hempty, List.argmin_nil]
    simp
  exact hstep2

/-- C8 witness: designer `"Amy"` twice, one POS row at 600 s with cash 1000;
the later order (540 s, distance 1 min) is strictly nearer than the earlier
one (0 s, distance 10 min), both within tolerance and amount — yet the
earlier order consumes the row and the later is mismatched. -/
theorem C8_order_dependence_amended_witness :
    cashPass 30 c8CashOf [mkPosCand c8PosGood] [c8Order1, c8Order2]
      = ⟨[0], [hotcakeMismatchRowOf c8Order2 (extract_minutes c8Order2.service)
          (c8CashOf c8Order2.bill_id) none]⟩ := by
  apply C8_order_dependence_amended 30 c8CashOf [mkPosCand c8PosGood] c8Order1 c8Order2 0
      (mkPosCand c8PosGood)
  · decide
  · decide
  · decide
  · decide
  · norm_num [minutesBetween, mkPosCand, c8PosGood, c8Order1]
  · norm_num [mkPosCand, c8PosGood, c8Order1, c8CashOf, eps]
  · norm_num [minutesBetween, mkPosCand, c8PosGood, c8Order2]
  · norm_num [mkPosCand, c8PosGood, c8Order2, c8CashOf, eps]
  · norm_num [minutesBetween, mkPosCand, c8PosGood, c8Order1, c8Order2]

/-- C8 counterexample to the claim as stated: a decoy POS row with the same
designer is nearer to both orders but matches neither order's cash.  Exactly
one POS row (index 1) satisfies the tolerance and amount conditions for both
orders, yet the earlier order does *not* consume it: the matcher tests only
the nearest candidate, so the earlier order is mismatched on the decoy and
the *later* order consumes the satisfying row. -/
theorem C8_counterexample :
    minutesBetween (mkPosCand c8PosGood).row.created_time c8Order1.service_start ≤ (30 : Rat)
    ∧ |(mkPosCand c8PosGood).row.cash_paid - c8CashOf c8Order1.bill_id| < eps
    ∧ minutesBetween (mkPosCand c8PosGood).row.created_time c8Order2.service_start ≤ (30 : Rat)
    ∧ |(mkPosCand c8PosGood).row.cash_paid - c8CashOf c8Order2.bill_id| < eps
    ∧ ¬ (|(mkPosCand c8PosDecoy).row.cash_paid - c8CashOf c8Order1.bill_id| < eps)
    ∧ ¬ (|(mkPosCand c8PosDecoy).row.cash_paid - c8CashOf c8Order2.bill_id| < eps)
    ∧ (cashPass 30 c8CashOf [mkPosCand c8PosDecoy, mkPosCand c8PosGood]
        [c8Order1, c8Order2]).used_pos = [1]
    ∧ ((cashPass 30 c8CashOf [mkPosCand c8PosDecoy, mkPosCand c8PosGood]
        [c8Order1, c8Order2]).mismatches.map (fun r => r.service_start))
      = [c8Order1.service_start] := by
  have hrun : cashPass 30 c8CashOf [mkPosCand c8PosDecoy, mkPosCand c8PosGood]
      [c8Order1, c8Order2]
      = ⟨[1], [hotcakeMismatchRowOf c8Order1 (extract_minutes c8Order1.service)
          (c8CashOf c8Order1.bill_id)
          (some ⟨minutesBetween (mkPosCand c8PosDecoy).row.created_time c8Order1.service_start,
            (mkPosCand c8PosDecoy).row.created_time,
            (mkPosCand c8PosDecoy).row.cash_paid⟩)]⟩ := by
    rw [cashPass_eq_claim]
    rw [show ([c8Order1, c8Order2].foldl (claimProcessOrder 30 c8CashOf
          [mkPosCand c8PosDecoy, mkPosCand c8PosGood]) ⟨[], []⟩)
        = claimProcessOrder 30 c8CashOf [mkPosCand c8PosDecoy, mkPosCand c8PosGood]
            (claimProcessOrder 30 c8CashOf [mkPosCand c8PosDecoy, mkPosCand c8PosGood]
              ⟨[], []⟩ c8Order1) c8Order2 from rfl]
    have hf1 : ([mkPosCand c8PosDecoy, mkPosCand c8PosGood].enum.filter
        (claimCashEligible [] (normalize_name c8Order1.designer)
          (extract_minutes c8Order1.service)))
        = [(0, mkPosCand c8PosDecoy), (1, mkPosCand c8PosGood)] := by decide
    have harg1 : List.argmin
        (fun ip => minutesBetween ip.2.row.created_time c8Order1.service_start)
        [(0, mkPosCand c8PosDecoy), (1, mkPosCand c8PosGood)]
        = some (0, mkPosCand c8PosDecoy) := by
      have hcmp : ¬ (minutesBetween (mkPosCand c8PosGood).row.created_time
            c8Order1.service_start
          < minutesBetween (mkPosCand c8PosDecoy).row.created_time
            c8Order1.service_start) := by
        norm_num [minutesBetween, mkPosCand, c8PosGood, c8PosDecoy, c8Order1]
      simp [List.argmin, List.argAux, hcmp]
    have hcond1 : ¬ (minutesBetween (mkPosCand c8PosDecoy).row.created_time
          c8Order1.service_start ≤ ((30 : Int) : Rat)
        ∧ |(mkPosCand c8PosDecoy).row.cash_paid - c8CashOf c8Order1.bill_id| < eps) := by
      rintro ⟨-, habs⟩
      revert habs
      norm_num [mkPosCand, c8PosDecoy, c8Order1, c8CashOf, eps]
    have hstep1 : claimProcessOrder 30 c8CashOf [mkPosCand c8PosDecoy, mkPosCand c8PosGood]
        ⟨[], []⟩ c8Order1
        = ⟨[], [hotcakeMismatchRowOf c8Order1 (extract_minutes c8Order1.service)
            (c8CashOf c8Order1.bill_id)
            (some ⟨minutesBetween (mkPosCand c8PosDecoy).row.created_time
                c8Order1.service_start,
              (mkPosCand c8PosDecoy).row.created_time,
              (mkPosCand c8PosDecoy).row.cash_paid⟩)]⟩ := by
      unfold claimProcessOrder claimNearestCand
      rw [if_neg (by decide : ¬ (normalize_name c8Order1.designer = ""))]
      simp only [hf1, harg1]
      rw [if_neg hcond1]
      simp
    rw [hstep1]
    have hf2 : ([mkPosCand c8PosDecoy, mkPosCand c8PosGood].enum.filter
        (claimCashEligible [] (normalize_name c8Order2.designer)
          (extract_minutes c8Order2.service)))
        = [(0, mkPosCand c8PosDecoy), (1, mkPosCand c8PosGood)] := by decide
    have harg2 : List.argmin
        (fun ip => minutesBetween ip.2.row.created_time c8Order2.service_start)
        [(0, mkPosCand c8PosDecoy), (1, mkPosCand c8PosGood)]
        = some (1, mkPosCand c8PosGood) := by
      have hcmp : minutesBetween (mkPosCand c8PosGood).row.created_time
            c8Order2.service_start
          < minutesBetween (mkPosCand c8PosDecoy).row.created_time
            c8Order2.service_start := by
        norm_num [minutesBetween, mkPosCand, c8PosGood, c8PosDecoy, c8Order2]
      simp [List.argmin, List.argAux, hcmp]
    have hcond2 : minutesBetween (mkPosCand c8PosGood).row.created_time
          c8Order2.service_start ≤ ((30 : Int) : Rat)
        ∧ |(mkPosCand c8PosGood).row.cash_paid - c8CashOf c8Order2.bill_id| < eps := by
      constructor
      · norm_num [minutesBetween, mkPosCand, c8PosGood, c8Order2]
      · norm_num [mkPosCand, c8PosGood, c8Order2, c8CashOf, eps]
    have hstep2 : claimProcessOrder 30 c8CashOf [mkPosCand c8PosDecoy, mkPosCand c8PosGood]
        ⟨[], [hotcakeMismatchRowOf c8Order1 (extract_minutes c8Order1.service)
            (c8CashOf c8Order1.bill_id)
            (some ⟨minutesBetween (mkPosCand c8PosDecoy).row.created_time
                c8Order1.service_start,
              (mkPosCand c8PosDecoy).row.created_time,
              (mkPosCand c8PosDecoy).row.cash_paid⟩)]⟩ c8Order2
        = ⟨[1], [hotcakeMismatchRowOf c8Order1 (extract_minutes c8Order1.service)
            (c8CashOf c8Order1.bill_id)
            (some ⟨minutesBetween (mkPosCand c8PosDecoy).row.created_time
                c8Order1.service_start,
              (mkPosCand c8PosDecoy).row.created_time,
              (mkPosCand c8PosDecoy).row.cash_paid⟩)]⟩ := by
      unfold claimProcessOrder claimNearestCand
      rw [if_neg (by decide : ¬ (normalize_name c8Order2.designer = ""))]
      simp only [hf2, harg2]
      rw [if_pos hcond2]
      simp
    exact hstep2
  refine ⟨?_, ?_, ?_, ?_, ?_, ?_, ?_, ?_⟩
  · norm_num [minutesBetween, mkPosCand, c8PosGood, c8Order1]
  · norm_num [mkPosCand, c8PosGood, c8Order1, c8CashOf, eps]
  · norm_num [minutesBetween, mkPosCand, c8PosGood, c8Order2]
  · norm_num [mkPosCand, c8PosGood, c8Order2, c8CashOf, eps]
  · norm_num [mkPosCand, c8PosDecoy, c8Order1, c8CashOf, eps]
  · norm_num [mkPosCand, c8PosDecoy, c8Order2, c8CashOf, eps]
  · rw [hrun]
  · rw [hrun]
    simp [hotcakeMismatchRowOf]

end CashRecon
